import Mathlib

/-!
Verification of the mobius state pipeline (`src/mobius/state/`): a shallow
embedding of the grounding guard, decision-payload validation, semantic merge
resolution, the Postgres-backed idempotent write protocol, and the pipeline
coordinator, together with theorems about the specified properties.

Python strings are modelled as `List Char`; Python `datetime` instants are
modelled as abstract `Nat` ticks carried together with their rendered ISO text
where the code interpolates `isoformat()` into strings.
-/

namespace Mobius

/-- Python strings, modelled as lists of characters. -/
abbrev Str := List Char

/-- Coerce a Lean string literal to the character-list model. -/
def chars (s : String) : Str := s.data

/-- Characters matched by Python `\s` / stripped by `str.strip()` (ASCII range,
which is all the code ever feeds it). -/
def isPyWs (c : Char) : Bool :=
  c == ' ' || c == '\t' || c == '\n' || c == '\r' || c == '\x0b' || c == '\x0c'

/-- Python `str.lower()` (ASCII case folding suffices for the code's inputs). -/
def lowerStr (s : Str) : Str := s.map Char.toLower

/-- Drop leading characters satisfying `p`. -/
def stripLeftOn (p : Char → Bool) (s : Str) : Str := s.dropWhile p

/-- Drop trailing characters satisfying `p`. -/
def stripRightOn (p : Char → Bool) (s : Str) : Str := (s.reverse.dropWhile p).reverse

/-- Python `str.strip(chars)` for the character class `p`. -/
def pyStripOn (p : Char → Bool) (s : Str) : Str := stripRightOn p (stripLeftOn p s)

/-- Python `str.strip()` (no arguments): strip whitespace at both ends. -/
def pyStrip (s : Str) : Str := pyStripOn isPyWs s

/-- Worker for `collapseRuns`; the flag records whether the previous character
was part of a run being replaced. -/
def collapseRunsAux (p : Char → Bool) (rep : Char) : Bool → Str → Str
  | _, [] => []
  | inRun, c :: rest =>
    if p c then
      if inRun then collapseRunsAux p rep true rest
      else rep :: collapseRunsAux p rep true rest
    else c :: collapseRunsAux p rep false rest

/-- Python `re.sub(r"X+", rep, s)`: replace each maximal run of characters
satisfying `p` by the single character `rep`. -/
def collapseRuns (p : Char → Bool) (rep : Char) (s : Str) : Str :=
  collapseRunsAux p rep false s

/-- `re.sub(r"\s+", " ", s.strip())` as used by `StatePipeline._contains_evidence`. -/
def normWs (s : Str) : Str := collapseRuns isPyWs ' ' (pyStrip s)

/-- Worker for `splitWs`; `acc` holds the current word reversed. -/
def splitWsAux : Str → Str → List Str
  | [], acc => if acc.isEmpty then [] else [acc.reverse]
  | c :: rest, acc =>
    if isPyWs c then
      if acc.isEmpty then splitWsAux rest []
      else acc.reverse :: splitWsAux rest []
    else splitWsAux rest (c :: acc)

/-- Python `str.split()` with no arguments: split on whitespace runs and drop
empty pieces. -/
def splitWs (s : Str) : List Str := splitWsAux s []

/-- Python `sep.join(words)`. -/
def joinSep (sep : Str) : List Str → Str
  | [] => []
  | w :: rest => w ++ (rest.map (fun x => sep ++ x)).flatten

/-- Join a list of words with single spaces (`" ".join(words)`). -/
def joinSp (ws : List Str) : Str := joinSep (chars " ") ws

/-- `StatePipeline._clean_reason`: `" ".join(str(value or "").split()).strip()`. -/
def cleanReason (s : Str) : Str := pyStrip (joinSp (splitWs s))

/-- Characters kept verbatim by `_slugify` (lower-case alphanumerics). -/
def isLowerAlnum (c : Char) : Bool := (decide ('a' ≤ c) && decide (c ≤ 'z')) || (decide ('0' ≤ c) && decide (c ≤ '9'))

/-- `storage._slugify`: lower-case, collapse non-alphanumeric runs to `-`,
strip dashes, fall back when empty. -/
def slugify (v : Str) (fallback : Str) : Str :=
  let collapsed := collapseRuns (fun c => !(isLowerAlnum c)) '-' (lowerStr (pyStrip v))
  let stripped := pyStripOn (fun c => c == '-') collapsed
  if stripped.isEmpty then fallback else stripped

/-- `StatePipeline._contains_evidence`: whitespace-normalize and lower both
sides, demand both non-empty, then check literal substring containment. -/
def containsEvidence (userText evidence : Str) : Bool :=
  let u := lowerStr (normWs userText)
  let q := lowerStr (normWs evidence)
  if u.isEmpty || q.isEmpty then false else decide (q <:+: u)

/-- The ambiguous anaphor openings rejected by `_looks_ambiguous_memory`. -/
def ambiguousPrefixes : List Str :=
  [chars "it ", chars "this ", chars "that ", chars "these ", chars "those ",
   chars "they ", chars "he ", chars "she ", chars "there ", chars "here "]

/-- `StatePipeline._looks_ambiguous_memory`: blank text, or text opening with
an ambiguous anaphor after trimming and lowering. -/
def looksAmbiguousMemory (text : Str) : Bool :=
  let normalized := lowerStr (pyStrip text)
  if normalized.isEmpty then true
  else ambiguousPrefixes.any (fun p => p.isPrefixOf normalized)

/-- `pipeline._safe_user_path`: collapse unsafe character runs to `-`, strip
dashes, fall back to `anonymous`. -/
def isSafePathChar (c : Char) : Bool :=
  (decide ('A' ≤ c) && decide (c ≤ 'Z')) || (decide ('a' ≤ c) && decide (c ≤ 'z')) ||
  (decide ('0' ≤ c) && decide (c ≤ '9')) || c == '_' || c == '.' || c == '-'

/-- `pipeline._safe_user_path`. -/
def safeUserPath (userKey : Str) : Str :=
  let collapsed := collapseRuns (fun c => !(isSafePathChar c)) '-' (pyStrip userKey)
  let stripped := pyStripOn (fun c => c == '-') collapsed
  if stripped.isEmpty then chars "anonymous" else stripped

/-- Render a natural number in decimal, as Python string interpolation does. -/
def natStr (n : Nat) : Str := (Nat.repr n).data

/-- `models.CheckinWrite`. Confidence is an optional real, carried opaquely by
the code paths we verify; modelled as a rational. -/
structure CheckinWrite where
  domain : Str
  trackType : Str
  title : Str
  summary : Str
  outcome : Str
  confidence : Option Rat
  wins : List Str
  barriers : List Str
  nextActions : List Str
  tags : List Str
  evidence : Str
deriving DecidableEq, Repr

/-- `models.JournalWrite`. The entry timestamp is an abstract instant. -/
structure JournalWrite where
  entryTs : Nat
  title : Str
  bodyMd : Str
  domainHints : List Str
  evidence : Str
deriving DecidableEq, Repr

/-- `models.MemoryWrite`. -/
structure MemoryWrite where
  domain : Str
  memory : Str
  evidence : Str
deriving DecidableEq, Repr

/-- `models.StateDecision`, with the per-channel reason fields that
`decision_engine` and `pipeline` construct and read on it. -/
structure StateDecision where
  checkin : Option CheckinWrite := none
  journal : Option JournalWrite := none
  memory : Option MemoryWrite := none
  checkinReason : Str := []
  memoryReason : Str := []
  reason : Str := []
  sourceModel : Option Str := none
  isFailure : Bool := false
deriving DecidableEq, Repr

/-- `StateDecision.has_writes`. -/
def StateDecision.hasWrites (d : StateDecision) : Bool :=
  d.checkin.isSome || d.journal.isSome || d.memory.isSome

/-- `StatePipeline._decision_with_channel_reasons`: normalize the top-level and
per-channel reasons to non-empty display strings, leaving payloads unchanged.
The reconstruction mirrors the code, which rebuilds the decision without a
journal payload. -/
def decisionWithChannelReasons (d : StateDecision) : StateDecision :=
  let topReason := if (cleanReason d.reason).isEmpty then chars "state-model" else cleanReason d.reason
  let failureReason := if d.isFailure then topReason else []
  let checkinReason :=
    if (cleanReason d.checkinReason).isEmpty then
      if failureReason.isEmpty then chars "missing check-in reason from state decision model"
      else chars "not written (" ++ failureReason ++ chars ")"
    else cleanReason d.checkinReason
  let memoryReason :=
    if (cleanReason d.memoryReason).isEmpty then
      if failureReason.isEmpty then chars "missing memory reason from state decision model"
      else chars "not written (" ++ failureReason ++ chars ")"
    else cleanReason d.memoryReason
  { checkin := d.checkin
    memory := d.memory
    checkinReason := checkinReason
    memoryReason := memoryReason
    reason := topReason
    sourceModel := d.sourceModel
    isFailure := d.isFailure }

/-- Outcome of the check-in branch of `_apply_grounding_guards`: surviving
payload, channel reason, and the optional machine-readable filter tag. -/
def groundCheckin (strict facts : Bool) (userText : Str) (checkin : Option CheckinWrite)
    (checkinReason : Str) : Option CheckinWrite × Str × Option Str :=
  match checkin with
  | none => (none, checkinReason, none)
  | some cw =>
    let evidence := pyStrip cw.evidence
    if strict && !containsEvidence userText evidence then
      (none, chars "filtered out: evidence not found in user text",
       some (chars "check-in-filtered-missing-evidence"))
    else if facts then
      (some { domain := cw.domain
              trackType := cw.trackType
              title := cw.title
              summary := if evidence.isEmpty then cw.summary else evidence
              outcome := cw.outcome
              confidence := cw.confidence
              wins := cw.wins.filter (fun item => containsEvidence userText item)
              barriers := cw.barriers.filter (fun item => containsEvidence userText item)
              nextActions := cw.nextActions.filter (fun item => containsEvidence userText item)
              tags := []
              evidence := evidence },
       checkinReason, none)
    else (some cw, checkinReason, none)

/-- Outcome of the memory branch of `_apply_grounding_guards`. -/
def groundMemory (strict facts : Bool) (userText : Str) (memory : Option MemoryWrite)
    (memoryReason : Str) : Option MemoryWrite × Str × Option Str :=
  match memory with
  | none => (none, memoryReason, none)
  | some mw =>
    let evidence := pyStrip mw.evidence
    if strict && !containsEvidence userText evidence then
      (none, chars "filtered out: evidence not found in user text",
       some (chars "memory-filtered-missing-evidence"))
    else
      let memoryText := if evidence.isEmpty then mw.memory else evidence
      if looksAmbiguousMemory memoryText then
        (none, chars "filtered out: ambiguous memory text",
         some (chars "memory-filtered-ambiguous"))
      else if facts then
        (some { domain := mw.domain, memory := pyStrip memoryText, evidence := evidence },
         memoryReason, none)
      else (some mw, memoryReason, none)

/-- Combine the top-level reason with the machine-readable filter tags, as the
tail of `_apply_grounding_guards` does. -/
def combineReason (base : Str) (parts : List Str) : Str :=
  let stripped := pyStrip base
  if parts.isEmpty then stripped
  else if stripped.isEmpty then joinSep (chars ",") parts
  else stripped ++ chars "|" ++ joinSep (chars ",") parts

/-- `StatePipeline._apply_grounding_guards`. -/
def applyGroundingGuards (strict facts : Bool) (d : StateDecision) (userText : Str) :
    StateDecision :=
  if !strict && !facts then decisionWithChannelReasons d
  else
    let ck := groundCheckin strict facts userText d.checkin (cleanReason d.checkinReason)
    let mem := groundMemory strict facts userText d.memory (cleanReason d.memoryReason)
    let parts := (ck.2.2.toList) ++ (mem.2.2.toList)
    decisionWithChannelReasons
      { checkin := ck.1
        memory := mem.1
        checkinReason := ck.2.1
        memoryReason := mem.2.1
        reason := combineReason d.reason parts
        sourceModel := d.sourceModel
        isFailure := d.isFailure }

/-- Parsed JSON values, the shape `json.loads` hands to the validators. -/
inductive JValue where
  | str (s : Str)
  | bool (b : Bool)
  | num (n : Int)
  | null
  | arr (xs : List JValue)
  | obj (fields : List (Str × JValue))

/-- Python `dict.get`: first binding for the key, if any. -/
def jget (p : List (Str × JValue)) (k : Str) : Option JValue :=
  (p.find? (fun kv => decide (kv.1 = k))).map Prod.snd

/-- Python truthiness of a JSON value. -/
def jTruthy : JValue → Bool
  | .str s => !s.isEmpty
  | .bool b => b
  | .num n => decide (n ≠ 0)
  | .null => false
  | .arr xs => !xs.isEmpty
  | .obj fields => !fields.isEmpty

/-- Python `str(...)` on a JSON value. Containers are rendered abstractly (the
code only ever compares these renderings against brace-free keywords such as
`merge`, so the abstraction is behavior-preserving). -/
def pyStr : JValue → Str
  | .str s => s
  | .bool true => chars "True"
  | .bool false => chars "False"
  | .num n => (Int.repr n).data
  | .null => chars "None"
  | .arr _ => chars "[list]"
  | .obj _ => chars "\x7bdict\x7d"

/-- `some v` exactly when the optional JSON value is a string. -/
def isStrOpt : Option JValue → Bool
  | some (.str _) => true
  | _ => false

/-- Required fields of the check-in block when `write` is true. -/
def checkinRequiredFields : List Str :=
  [chars "domain", chars "track_type", chars "title", chars "summary",
   chars "outcome", chars "evidence"]

/-- Required fields of the memory block when `write` is true. -/
def memoryRequiredFields : List Str :=
  [chars "domain", chars "memory", chars "evidence"]

/-- Per-block portion of `decision_engine._payload_has_required_shape`: a
boolean `write`, a non-blank string `reason`, and, when `write` is true, every
required field present as a string. -/
def blockShapeOk (b : List (Str × JValue)) (required : List Str) : Bool :=
  match jget b (chars "write") with
  | some (.bool w) =>
    match jget b (chars "reason") with
    | some (.str r) =>
      !(pyStrip r).isEmpty && (if w then required.all (fun k => isStrOpt (jget b k)) else true)
    | _ => false
  | _ => false

/-- Channel-block check of `_payload_has_required_shape`: the key must map to
an object whose contents pass `blockShapeOk`. -/
def channelBlockOk (p : List (Str × JValue)) (name : Str) (required : List Str) : Bool :=
  match jget p name with
  | some (.obj b) => blockShapeOk b required
  | _ => false

/-- `some v` exactly when the optional JSON value is an object. -/
def isObjOpt : Option JValue → Bool
  | some (.obj _) => true
  | _ => false

/-- `decision_engine._payload_has_required_shape`, in source order: the three
top-level keys, object/str type checks, then each channel block. -/
def payloadHasRequiredShape (p : List (Str × JValue)) : Bool :=
  (jget p (chars "checkin")).isSome && (jget p (chars "memory")).isSome &&
  (jget p (chars "reason")).isSome &&
  isObjOpt (jget p (chars "checkin")) && isObjOpt (jget p (chars "memory")) &&
  isStrOpt (jget p (chars "reason")) &&
  channelBlockOk p (chars "checkin") checkinRequiredFields &&
  channelBlockOk p (chars "memory") memoryRequiredFields

/-- Declarative block requirement, following the amended claim: boolean
`write`, non-blank string `reason`, and (when `write` is true) every required
field present as a string, possibly empty. -/
def BlockShapeSpec (b : List (Str × JValue)) (required : List Str) : Prop :=
  (∃ w : Bool, jget b (chars "write") = some (.bool w) ∧
    (w = true → ∀ k ∈ required, ∃ s, jget b k = some (.str s))) ∧
  (∃ r, jget b (chars "reason") = some (.str r) ∧ pyStrip r ≠ [])

/-- Declarative payload requirement, following the amended claim: both channel
blocks present as objects satisfying `BlockShapeSpec`, plus a top-level string
`reason`. -/
def ShapeSpec (p : List (Str × JValue)) : Prop :=
  (∃ cb, jget p (chars "checkin") = some (.obj cb) ∧ BlockShapeSpec cb checkinRequiredFields) ∧
  (∃ mb, jget p (chars "memory") = some (.obj mb) ∧ BlockShapeSpec mb memoryRequiredFields) ∧
  (∃ r, jget p (chars "reason") = some (.str r))

/-- One attempt of `_decide_with_model`: a transport error, unparseable text
(`_extract_json_payload` yields the empty object), or a parsed payload. -/
inductive DecisionAttempt where
  | err
  | text (payload : Option (List (Str × JValue)))

/-- Retry loop of `StateDecisionEngine._decide_with_model`, restricted to the
payload it accepts: errors and parse/shape failures consume an attempt and
continue; the first payload with the required shape is accepted. -/
def decideLoopAccepted : List DecisionAttempt → Option (List (Str × JValue))
  | [] => none
  | .err :: rest => decideLoopAccepted rest
  | .text none :: rest => decideLoopAccepted rest
  | .text (some p) :: rest =>
    if payloadHasRequiredShape p then some p else decideLoopAccepted rest

/-- A merge-candidate row as the memory engine consumes it (only `slug` and
`memory` are read). -/
structure CandidateRow where
  slug : Str
  memoryText : Str
deriving DecidableEq, Repr

/-- One attempt of `MemoryEngine._llm_merge_decision`: a transport error or the
JSON object extracted from the model text (the empty object stands for
unparseable output, exactly as `_extract_json_payload` produces it). -/
inductive MergeAttempt where
  | err
  | payload (p : List (Str × JValue))

/-- `str(response.get(key) or "")` as the merge decision reads its fields. -/
def mergeFieldStr (p : List (Str × JValue)) (k : Str) : Str :=
  match jget p k with
  | some v => if jTruthy v then pyStr v else []
  | none => []

/-- The normalized `action` field of a merge response. -/
def mergeActionOf (p : List (Str × JValue)) : Str :=
  lowerStr (pyStrip (mergeFieldStr p (chars "action")))

/-- The normalized `target_slug` field of a merge response. -/
def mergeTargetOf (p : List (Str × JValue)) : Str :=
  pyStrip (mergeFieldStr p (chars "target_slug"))

/-- `MemoryEngine._llm_merge_decision` over the per-attempt model responses:
accept `merge` with a non-empty `target_slug`, treat `new` as terminal `none`,
retry on anything else, `none` once attempts are exhausted. -/
def llmMergeDecision : List MergeAttempt → Option Str
  | [] => none
  | .err :: rest => llmMergeDecision rest
  | .payload p :: rest =>
    if p.isEmpty then llmMergeDecision rest
    else if mergeActionOf p = chars "merge" && !(mergeTargetOf p).isEmpty then
      some (mergeTargetOf p)
    else if mergeActionOf p = chars "new" then none
    else llmMergeDecision rest

/-- Insert a key into the ordered dict, overwriting the value in place when the
key is already bound (Python dict assignment). -/
def dictAssign (d : List (Str × CandidateRow)) (k : Str) (v : CandidateRow) :
    List (Str × CandidateRow) :=
  if d.any (fun kv => decide (kv.1 = k)) then
    d.map (fun kv => if kv.1 = k then (kv.1, v) else kv)
  else d ++ [(k, v)]

/-- The slug-keyed union `merged_candidates` built by
`_resolve_semantic_merge_slug`: semantic rows first (assignment semantics),
then recency rows only for slugs not already present; blank slugs skipped. -/
def mergedCandidates (semantic recency : List CandidateRow) : List (Str × CandidateRow) :=
  let afterSemantic := semantic.foldl
    (fun d row => if (pyStrip row.slug).isEmpty then d else dictAssign d (pyStrip row.slug) row) []
  recency.foldl
    (fun d row =>
      if (pyStrip row.slug).isEmpty then d
      else if d.any (fun kv => decide (kv.1 = pyStrip row.slug)) then d
      else d ++ [(pyStrip row.slug, row)])
    afterSemantic

/-- `MemoryEngine._resolve_semantic_merge_slug`. `recency` is the recency
shortlist from `list_memory_candidates`; `semantic` is the similarity result
(empty when the embedding call or vector search failed); `responses` are the
verification-model replies, one per attempt, truncated to the configured
`1 + max_json_retries` attempts. The candidate-limit truncation of the
shortlist only affects the prompt rendering, which carries no behavior here. -/
def resolveSemanticMergeSlug (enabled : Bool) (recency semantic : List CandidateRow)
    (maxJsonRetries : Nat) (responses : List MergeAttempt) : Option Str :=
  if !enabled then none
  else if recency.isEmpty then none
  else
    let merged := mergedCandidates semantic recency
    if merged.isEmpty then none
    else
      match llmMergeDecision (responses.take (1 + maxJsonRetries)) with
      | none => none
      | some s => if s ∈ merged.map Prod.fst then some s else none

/-- `models.WriteSummaryItem`; `result_ref` carries a row id. -/
structure WriteSummaryItem where
  channel : Str
  status : Str
  target : Str
  details : Str := []
  resultRef : Option Nat := none
deriving DecidableEq, Repr

/-- A `write_operations` ledger row. -/
structure WriteOpRow where
  id : Nat
  userId : Nat
  turnId : Option Nat
  channel : Str
  idemKey : Str
  status : Str
  payloadHash : Str
  resultRef : Option Nat
  errorText : Option Str
deriving DecidableEq, Repr

/-- A `tracks` row (the columns the verified code touches). -/
structure TrackRow where
  id : Nat
  userId : Nat
  slug : Str
  domain : Str
  trackType : Str
  title : Str
  status : Str
  tags : List Str
  lastCheckinAt : Option Nat
  updatedAt : Nat
  sourceTurnId : Nat
deriving DecidableEq, Repr

/-- A `checkin_events` row. -/
structure CheckinEventRow where
  id : Nat
  userId : Nat
  trackId : Nat
  timestamp : Nat
  outcome : Str
  confidence : Option Rat
  summary : Str
  wins : List Str
  barriers : List Str
  nextActions : List Str
  sourceTurnId : Nat
  sourceModel : Option Str
deriving DecidableEq, Repr

/-- A `memory_cards` row. -/
structure MemoryCardRow where
  id : Nat
  userId : Nat
  domain : Str
  slug : Str
  title : Str
  summary : Str
  narrative : Str
  firstSeen : Nat
  lastSeen : Nat
  occurrences : Int
  confidence : Option Rat
  tags : List Str
  sourceTurnId : Nat
  updatedAt : Nat
deriving DecidableEq, Repr

/-- A `memory_evidence` row. -/
structure MemoryEvidenceRow where
  memoryCardId : Nat
  evidenceType : Str
  evidenceRef : Option Nat
  excerpt : Str
deriving DecidableEq, Repr

/-- The relational store state touched by the write engines. `nextId` models
the id sequence behind `RETURNING id`. -/
structure DBState where
  nextId : Nat
  writeOps : List WriteOpRow
  tracks : List TrackRow
  checkinEvents : List CheckinEventRow
  memoryCards : List MemoryCardRow
  memoryEvidence : List MemoryEvidenceRow
deriving DecidableEq, Repr

/-- The ledger row owning `(user_id, idempotency_key)`, if any. -/
def findWriteOp (st : DBState) (u : Nat) (key : Str) : Option WriteOpRow :=
  st.writeOps.find? (fun op => decide (op.userId = u ∧ op.idemKey = key))

/-- `PostgresStore._begin_write_operation`: insert the ledger row with
`ON CONFLICT DO NOTHING`; report the owning row id and whether this call
inserted it. -/
def beginWriteOperation (st : DBState) (u : Nat) (turnId : Nat) (channel : Str)
    (key : Str) (payloadHash : Str) : DBState × Nat × Bool :=
  match findWriteOp st u key with
  | some op => (st, op.id, false)
  | none =>
    ({ st with
        nextId := st.nextId + 1
        writeOps := st.writeOps ++
          [{ id := st.nextId
             userId := u
             turnId := some turnId
             channel := channel
             idemKey := key
             status := chars "applied"
             payloadHash := payloadHash
             resultRef := none
             errorText := none }] },
     st.nextId, true)

/-- `PostgresStore._finish_write_operation`. -/
def finishWriteOperation (st : DBState) (opId : Nat) (status : Str)
    (resultRef : Option Nat) (errorText : Option Str) : DBState :=
  { st with
      writeOps := st.writeOps.map (fun op =>
        if op.id = opId then
          { op with status := status, resultRef := resultRef, errorText := errorText }
        else op) }

/-- Stand-in for `storage._payload_hash` on a check-in payload: the ledger
stores a digest of the canonical JSON; only its presence matters to the
verified control flow, so a field serialization models it. -/
def payloadHashCheckin (p : CheckinWrite) : Str :=
  joinSep (chars "|")
    ([p.domain, p.trackType, p.title, p.summary, p.outcome] ++ p.wins ++ p.barriers ++
     p.nextActions ++ p.tags)

/-- The domain-prefixed track slug derived in `write_checkin`. -/
def checkinTrackSlug (p : CheckinWrite) : Str :=
  let titleSlug := slugify p.title (chars "general-checkin")
  if (p.domain ++ chars "-").isPrefixOf titleSlug then titleSlug
  else p.domain ++ chars "-" ++ titleSlug

/-- `storage._human_elapsed`. -/
def humanElapsed (previous : Option Nat) (now : Nat) : Str :=
  match previous with
  | none => chars "first check-in"
  | some prev =>
    let seconds := now - prev
    if seconds < 60 then natStr seconds ++ chars "s since previous"
    else
      let minutes := seconds / 60
      if minutes < 60 then natStr minutes ++ chars "m since previous"
      else
        let hours := minutes / 60
        if hours < 24 then natStr hours ++ chars "h since previous"
        else natStr (hours / 24) ++ chars "d since previous"

/-- `PostgresStore.write_checkin`: ledger-first idempotent write of one
check-in event, upserting the track row. A duplicate key rolls back and leaves
the state untouched. -/
def writeCheckin (st : DBState) (u : Nat) (turnId : Nat) (payload : CheckinWrite)
    (key : Str) (sourceModel : Option Str) (now : Nat) : DBState × WriteSummaryItem :=
  let trackSlug := checkinTrackSlug payload
  let target := chars "checkins/" ++ trackSlug ++ chars ".md"
  let begun := beginWriteOperation st u turnId (chars "checkin") key (payloadHashCheckin payload)
  if !begun.2.2 then
    (st, { channel := chars "checkin"
           status := chars "skipped_duplicate"
           target := target
           details := chars "duplicate idempotency key" })
  else
    let st1 := begun.1
    let opId := begun.2.1
    let existingTrack := st1.tracks.find? (fun t => decide (t.userId = u ∧ t.slug = trackSlug))
    let previousLastCheckin := existingTrack.bind TrackRow.lastCheckinAt
    let upserted : DBState × Nat :=
      match existingTrack with
      | some t =>
        ({ st1 with
            tracks := st1.tracks.map (fun tr =>
              if tr.id = t.id then
                { tr with
                    domain := payload.domain
                    trackType := payload.trackType
                    title := payload.title
                    status := chars "active"
                    tags := payload.tags
                    updatedAt := now
                    sourceTurnId := turnId }
              else tr) }, t.id)
      | none =>
        ({ st1 with
            nextId := st1.nextId + 1
            tracks := st1.tracks ++
              [{ id := st1.nextId
                 userId := u
                 slug := trackSlug
                 domain := payload.domain
                 trackType := payload.trackType
                 title := payload.title
                 status := chars "active"
                 tags := payload.tags
                 lastCheckinAt := none
                 updatedAt := now
                 sourceTurnId := turnId }] }, st1.nextId)
    let st2 := upserted.1
    let trackId := upserted.2
    let checkinId := st2.nextId
    let newEvent : CheckinEventRow :=
      { id := checkinId
        userId := u
        trackId := trackId
        timestamp := now
        outcome := payload.outcome
        confidence := payload.confidence
        summary := payload.summary
        wins := payload.wins
        barriers := payload.barriers
        nextActions := payload.nextActions
        sourceTurnId := turnId
        sourceModel := sourceModel }
    let st3 :=
      { st2 with
          nextId := st2.nextId + 1
          checkinEvents := st2.checkinEvents ++ [newEvent] }
    let st4 :=
      { st3 with
          tracks := st3.tracks.map (fun tr =>
            if tr.id = trackId then { tr with lastCheckinAt := some now, updatedAt := now }
            else tr) }
    let st5 := finishWriteOperation st4 opId (chars "applied") (some checkinId) none
    (st5, { channel := chars "checkin"
            status := chars "applied"
            target := target
            details := humanElapsed previousLastCheckin now
            resultRef := some checkinId })

/-- The memory payload exactly as `PostgresStore.write_memory` consumes it:
the function reads `domain`, `title`, `summary`, `narrative`, `confidence` and
`tags` attributes off its payload (note the snapshot's `models.MemoryWrite`
dataclass declares only `domain`/`memory`/`evidence`). -/
structure StorageMemoryPayload where
  domain : Str
  title : Str
  summary : Str
  narrative : Str
  confidence : Option Rat
  tags : List Str
deriving DecidableEq, Repr

/-- Stand-in for `storage._payload_hash` on a memory payload. -/
def payloadHashMemory (p : StorageMemoryPayload) : Str :=
  joinSep (chars "|") ([p.domain, p.title, p.summary, p.narrative] ++ p.tags)

/-- The narrative produced when `write_memory` merges into an existing card:
append one time-stamped entry when the incoming narrative is non-blank,
otherwise keep the (stripped) existing narrative. -/
def mergeNarrative (existingRaw : Str) (nowIso : Str) (pieceRaw : Str) : Str :=
  let existing := pyStrip existingRaw
  let piece := pyStrip pieceRaw
  if piece.isEmpty then existing
  else if existing.isEmpty then chars "- " ++ nowIso ++ chars ": " ++ piece
  else existing ++ chars "\n\n- " ++ nowIso ++ chars ": " ++ piece

/-- The first `memory_cards` row for `(user_id, domain, slug)`. -/
def findMemoryCard (st : DBState) (u : Nat) (domain slug : Str) : Option MemoryCardRow :=
  st.memoryCards.find? (fun c => decide (c.userId = u ∧ c.domain = domain ∧ c.slug = slug))

/-- `PostgresStore.write_memory`: ledger-first idempotent write of one memory
card (insert on first write for the slug, merge with occurrence increment
afterwards), always appending a `memory_evidence` row. `nowIso` is the
rendered `now.isoformat()` interpolated into the narrative. -/
def writeMemory (st : DBState) (u : Nat) (turnId : Nat) (payload : StorageMemoryPayload)
    (key : Str) (sourceExcerpt : Str) (mergeSlug : Option Str) (now : Nat) (nowIso : Str) :
    DBState × WriteSummaryItem :=
  let memorySlug :=
    if (mergeSlug.getD []).isEmpty then slugify payload.title (chars "user-memory")
    else mergeSlug.getD []
  let target := chars "memories/" ++ payload.domain ++ chars ".md"
  let begun := beginWriteOperation st u turnId (chars "memory") key (payloadHashMemory payload)
  if !begun.2.2 then
    (st, { channel := chars "memory"
           status := chars "skipped_duplicate"
           target := target
           details := chars "duplicate idempotency key" })
  else
    let st1 := begun.1
    let opId := begun.2.1
    let upserted : DBState × Nat :=
      match findMemoryCard st1 u payload.domain memorySlug with
      | some c =>
        let occurrences := (if c.occurrences = 0 then 1 else c.occurrences) + 1
        ({ st1 with
            memoryCards := st1.memoryCards.map (fun card =>
              if card.id = c.id then
                { card with
                    title := payload.title
                    summary := payload.summary
                    narrative := mergeNarrative c.narrative nowIso payload.narrative
                    lastSeen := now
                    occurrences := occurrences
                    confidence := payload.confidence
                    tags := payload.tags
                    sourceTurnId := turnId
                    updatedAt := now }
              else card) }, c.id)
      | none =>
        ({ st1 with
            nextId := st1.nextId + 1
            memoryCards := st1.memoryCards ++
              [{ id := st1.nextId
                 userId := u
                 domain := payload.domain
                 slug := memorySlug
                 title := payload.title
                 summary := payload.summary
                 narrative := payload.narrative
                 firstSeen := now
                 lastSeen := now
                 occurrences := 1
                 confidence := payload.confidence
                 tags := payload.tags
                 sourceTurnId := turnId
                 updatedAt := now }] }, st1.nextId)
    let st2 := upserted.1
    let memoryId := upserted.2
    let newEvidence : MemoryEvidenceRow :=
      { memoryCardId := memoryId
        evidenceType := chars "turn_event"
        evidenceRef := some turnId
        excerpt := sourceExcerpt.take 512 }
    let st3 :=
      { st2 with
          memoryEvidence := st2.memoryEvidence ++ [newEvidence] }
    let st4 := finishWriteOperation st3 opId (chars "applied") (some memoryId) none
    (st4, { channel := chars "memory"
            status := chars "applied"
            target := target
            details := payload.domain ++ chars "/" ++ memorySlug
            resultRef := some memoryId })

/-- Python exceptions escaping a collaborator call, identified by class name. -/
abbrev PyErr := Str

/-- An `active_tracks` snapshot row as `_format_context` renders it; the
f-string renderings of the fetched column values are carried as strings. -/
structure TrackSnapshotRow where
  title : Str
  domain : Str
  status : Str
  lastCheckinAt : Str
deriving DecidableEq, Repr

/-- A `recent_checkins` snapshot row as `_format_context` renders it. -/
structure CheckinSnapshotRow where
  trackSlug : Str
  summary : Str
  timestamp : Str
deriving DecidableEq, Repr

/-- A `recent_memory_cards` snapshot row as `_format_context` renders it. -/
structure MemorySnapshotRow where
  domain : Str
  slug : Str
  occurrences : Str
deriving DecidableEq, Repr

/-- `models.StateContextSnapshot` (journal rows are fetched but never rendered
by `_format_context`, so they stay opaque). -/
structure StateContextSnapshot where
  activeTracks : List TrackSnapshotRow := []
  recentCheckins : List CheckinSnapshotRow := []
  recentJournalEntries : List Str := []
  recentMemoryCards : List MemorySnapshotRow := []
deriving DecidableEq, Repr

/-- Join lines with newlines. -/
def joinNl (lines : List Str) : Str := joinSep (chars "\n") lines

/-- `StatePipeline._format_context`. -/
def formatContext (snapshot : StateContextSnapshot) : Str :=
  let trackLines :=
    if snapshot.activeTracks.isEmpty then []
    else chars "Active tracks:" :: snapshot.activeTracks.map (fun row =>
      chars "- " ++ row.title ++ chars " [" ++ row.domain ++ chars "] status=" ++
        row.status ++ chars " last_checkin=" ++ row.lastCheckinAt)
  let checkinLines :=
    if snapshot.recentCheckins.isEmpty then []
    else chars "Recent check-ins:" :: snapshot.recentCheckins.map (fun row =>
      chars "- " ++ row.trackSlug ++ chars ": " ++ row.summary ++ chars " (" ++
        row.timestamp ++ chars ")")
  let memoryLines :=
    if snapshot.recentMemoryCards.isEmpty then []
    else chars "Recent memories:" :: snapshot.recentMemoryCards.map (fun row =>
      chars "- " ++ row.domain ++ chars "/" ++ row.slug ++ chars " (occurrences=" ++
        row.occurrences ++ chars ")")
  pyStrip (joinNl (trackLines ++ checkinLines ++ memoryLines))

/-- The two pipeline gates read by every public entry point: `self.enabled`
and the hardcoded `self._writes_temporarily_paused`. -/
structure PipelineFlags where
  enabled : Bool
  writesTemporarilyPaused : Bool
deriving DecidableEq, Repr

/-- The value `StatePipeline.__init__` assigns to
`self._writes_temporarily_paused` (a hardcoded constant in the source). -/
def pipelineInitWritesPaused : Bool := true

/-- `StatePipeline.resolve_user_key`: the stripped request user when present,
else the configured anonymous key (both user-scope policies fall back). -/
def resolveUserKey (requestUser : Option Str) (anonymousUserKey : Str) : Str :=
  let user := pyStrip (requestUser.getD [])
  if user.isEmpty then anonymousUserKey else user

/-- `StatePipeline.context_for_prompt`: gated by the enabled and pause flags;
the snapshot fetch may raise, which is swallowed into an empty string. -/
def contextForPrompt (flags : PipelineFlags) (fetch : Except PyErr StateContextSnapshot) :
    Str :=
  if !flags.enabled || flags.writesTemporarilyPaused then []
  else
    match fetch with
    | .ok snapshot => formatContext snapshot
    | .error _ => []

/-- `StatePipeline._decision_failure_footer`. -/
def decisionFailureFooter (onFailure : Str) (decision : StateDecision) (userKey : Str) :
    Str :=
  if !decision.isFailure then []
  else if onFailure ≠ chars "footer_warning" then []
  else
    let reason := if decision.reason.isEmpty then chars "state-decision-failure" else decision.reason
    joinNl
      [chars "*State warning:*",
       chars "- decision engine failed for this turn (`" ++ reason ++
         chars "`), so state writes were skipped.",
       chars "- state path scope: `state/users/" ++ safeUserPath userKey ++ chars "/`"]

/-- `StatePipeline._format_footer`. -/
def formatFooter (summaryItems : List WriteSummaryItem) (userKey : Str) : Str :=
  if summaryItems.isEmpty then []
  else
    joinNl (chars "*State writes:*" :: summaryItems.map (fun item =>
      let target :=
        if item.channel = chars "projection" then item.target
        else chars "state/users/" ++ safeUserPath userKey ++ chars "/" ++ item.target
      let details := if item.details.isEmpty then [] else chars " - " ++ item.details
      let label := if item.channel = chars "checkin" then chars "check-in" else item.channel
      chars "- " ++ label ++ chars ": `" ++ target ++ chars "` (" ++ item.status ++
        chars ")" ++ details))

/-- The collaborator calls `process_turn` makes inside its `try` block, each of
which may raise: context fetch, the decision model, the turn upsert, the two
write engines (keyed by the derived idempotency key), and projection export.
Stateful steps thread the store state and report it even on failure, since
each storage call commits its own transaction. -/
structure TurnSteps where
  fetchSnapshot : Except PyErr StateContextSnapshot
  decideModel : StateContextSnapshot → Except PyErr StateDecision
  upsertTurn : DBState → DBState × Except PyErr (Nat × Nat)
  applyCheckin : DBState → CheckinWrite → Str → DBState × Except PyErr WriteSummaryItem
  applyMemory : DBState → MemoryWrite → Str → DBState × Except PyErr WriteSummaryItem
  projectionExport : DBState → DBState × Except PyErr (List WriteSummaryItem)

/-- `StatePipeline._decide_turn`: fetch the snapshot, ask the decision engine,
then apply the grounding guards. -/
def decideTurn (steps : TurnSteps) (strict facts : Bool) (userText : Str) :
    Except PyErr StateDecision :=
  match steps.fetchSnapshot with
  | .error e => .error e
  | .ok snapshot =>
    match steps.decideModel snapshot with
    | .error e => .error e
    | .ok d => .ok (applyGroundingGuards strict facts d userText)

/-- One write channel inside `process_turn`: skipped when the grounded
decision carries no payload for it. -/
def runCheckinChannel (steps : TurnSteps) (st : DBState) (c : Option CheckinWrite)
    (key : Str) : DBState × Except PyErr (List WriteSummaryItem) :=
  match c with
  | none => (st, .ok [])
  | some cw =>
    match steps.applyCheckin st cw key with
    | (st1, .error e) => (st1, .error e)
    | (st1, .ok item) => (st1, .ok [item])

/-- The memory write channel inside `process_turn`. -/
def runMemoryChannel (steps : TurnSteps) (st : DBState) (m : Option MemoryWrite)
    (key : Str) : DBState × Except PyErr (List WriteSummaryItem) :=
  match m with
  | none => (st, .ok [])
  | some mw =>
    match steps.applyMemory st mw key with
    | (st1, .error e) => (st1, .error e)
    | (st1, .ok item) => (st1, .ok [item])

/-- The body of `StatePipeline.process_turn`'s `try` block: decide (unless a
precomputed decision was passed), normalize reasons, emit the failure footer
when nothing survives, otherwise upsert the turn, run both channels, export
the projection when some write applied, and format the footer. -/
def processTurnBody (steps : TurnSteps) (strict facts : Bool) (onFailure : Str)
    (userKey userText : Str) (requestHash : Str) (precomputed : Option StateDecision)
    (st : DBState) : DBState × Except PyErr Str :=
  let decided : Except PyErr StateDecision :=
    match precomputed with
    | some d => .ok d
    | none => decideTurn steps strict facts userText
  match decided with
  | .error e => (st, .error e)
  | .ok d0 =>
    let decision := decisionWithChannelReasons d0
    if !decision.hasWrites then (st, .ok (decisionFailureFooter onFailure decision userKey))
    else
      match steps.upsertTurn st with
      | (st1, .error e) => (st1, .error e)
      | (st1, .ok _ids) =>
        match runCheckinChannel steps st1 decision.checkin (requestHash ++ chars ":checkin") with
        | (st2, .error e) => (st2, .error e)
        | (st2, .ok checkinItems) =>
          match runMemoryChannel steps st2 decision.memory (requestHash ++ chars ":memory") with
          | (st3, .error e) => (st3, .error e)
          | (st3, .ok memoryItems) =>
            let items := checkinItems ++ memoryItems
            if items.any (fun item => decide (item.status = chars "applied")) then
              match steps.projectionExport st3 with
              | (st4, .error e) => (st4, .error e)
              | (st4, .ok projItems) => (st4, .ok (formatFooter (items ++ projItems) userKey))
            else (st3, .ok (formatFooter items userKey))

/-- `StatePipeline.process_turn`: the enabled/pause gate short-circuits to an
empty footer before any work; otherwise the try-block body runs and any raised
exception is caught and converted to an empty footer. -/
def processTurn (flags : PipelineFlags) (steps : TurnSteps) (strict facts : Bool)
    (onFailure : Str) (requestUser : Option Str) (anonymousUserKey : Str)
    (userText : Str) (requestHash : Str) (precomputed : Option StateDecision)
    (st : DBState) : DBState × Str :=
  if !flags.enabled || flags.writesTemporarilyPaused then (st, [])
  else
    let userKey := resolveUserKey requestUser anonymousUserKey
    match processTurnBody steps strict facts onFailure userKey userText requestHash
        precomputed st with
    | (st1, .ok footer) => (st1, footer)
    | (st1, .error _) => (st1, [])

instance : Inhabited JValue := ⟨JValue.null⟩

/-- No character of `t` is Python whitespace. -/
def wsFree (t : Str) : Bool := t.all (fun c => !isPyWs c)

/-- A ledger row for `(user_id, idempotency_key)` exists. -/
def hasOpKey (st : DBState) (u : Nat) (k : Str) : Prop :=
  ∃ op ∈ st.writeOps, op.userId = u ∧ op.idemKey = k

/-- One `write_memory` call of a sequence targeting a fixed user and slug. -/
structure MemoryCall where
  payload : StorageMemoryPayload
  idemKey : Str
  turnId : Nat
  excerpt : Str
  now : Nat
  nowIso : Str
deriving DecidableEq, Repr

/-- Run a sequence of `write_memory` calls resolving to the same slug
(`merge_slug` pinned), threading the store state. -/
def applyMemoryCalls (u : Nat) (slug : Str) : DBState → List MemoryCall → DBState
  | st, [] => st
  | st, c :: rest =>
    applyMemoryCalls u slug
      (writeMemory st u c.turnId c.payload c.idemKey c.excerpt (some slug) c.now c.nowIso).1
      rest

/-- The narrative after a run of merges: each merge with a non-blank narrative
appends one `- <iso>: <text>` entry, a blank one only re-strips. -/
def narrativeAfterCalls : Str → List MemoryCall → Str
  | n, [] => n
  | n, c :: rest => narrativeAfterCalls (mergeNarrative n c.nowIso c.payload.narrative) rest


/-- An empty store, the initial state for concrete runs. -/
def emptyDB : DBState :=
  { nextId := 0, writeOps := [], tracks := [], checkinEvents := [], memoryCards := [],
    memoryEvidence := [] }

/-- A snapshot with one active track, whose rendering is non-empty. -/
def exSnapshot : StateContextSnapshot :=
  { activeTracks := [{ title := chars "Fat loss"
                       domain := chars "health"
                       status := chars "active"
                       lastCheckinAt := chars "2026-01-01" }] }

/-- Collaborator steps that all succeed. -/
def exStepsOk : TurnSteps :=
  { fetchSnapshot := Except.ok {}
    decideModel := fun _ => Except.ok {}
    upsertTurn := fun st => (st, Except.ok (0, 0))
    applyCheckin := fun st _ _ =>
      (st, Except.ok { channel := chars "checkin", status := chars "applied", target := chars "t" })
    applyMemory := fun st _ _ =>
      (st, Except.ok { channel := chars "memory", status := chars "applied", target := chars "m" })
    projectionExport := fun st => (st, Except.ok []) }

/-- Collaborator steps whose context fetch raises. -/
def exStepsFailingFetch : TurnSteps :=
  { exStepsOk with fetchSnapshot := Except.error (chars "OperationalError") }

/-- A memory write whose text and evidence open with an ambiguous anaphor. -/
def exMemoryAmbiguous : MemoryWrite :=
  { domain := chars "general", memory := chars "It broke down.", evidence := chars "It broke down." }

/-- A decision proposing only the ambiguous memory write. -/
def exDecisionAmbiguous : StateDecision :=
  { memory := some exMemoryAmbiguous, reason := chars "state-model" }

/-- A memory write with blank evidence and a paraphrased text. -/
def exMemoryEmptyEvidence : MemoryWrite :=
  { domain := chars "health", memory := chars "likes green tea", evidence := [] }

/-- A decision proposing only the blank-evidence memory write. -/
def exDecisionEmptyEvidence : StateDecision :=
  { memory := some exMemoryEmptyEvidence, reason := chars "state-model" }

/-- A grounded memory write whose model text paraphrases the evidence. -/
def exMemoryGrounded : MemoryWrite :=
  { domain := chars "health"
    memory := chars "User has lactose intolerance."
    evidence := chars "I am lactose intolerant." }

/-- A decision proposing only the grounded memory write. -/
def exDecisionGrounded : StateDecision :=
  { memory := some exMemoryGrounded, reason := chars "state-model" }

/-- A check-in write whose evidence is absent from the user text below. -/
def exCheckinUngrounded : CheckinWrite :=
  { domain := chars "health", trackType := chars "goal", title := chars "Fat loss"
    summary := chars "s", outcome := chars "note", confidence := none, wins := []
    barriers := [], nextActions := [], tags := [], evidence := chars "missing quote" }

/-- A memory write whose evidence is absent from the user text below. -/
def exMemoryUngrounded : MemoryWrite :=
  { domain := chars "health", memory := chars "m", evidence := chars "absent quote" }

/-- A decision proposing both ungrounded writes. -/
def exDecisionUngrounded : StateDecision :=
  { checkin := some exCheckinUngrounded
    memory := some exMemoryUngrounded
    reason := chars "state-model" }

/-- The user text the ungrounded evidence fails to quote. -/
def exUserText : Str := chars "Today I planted raspberry bushes."

/-- A recency merge candidate. -/
def exCandidateRow : CandidateRow :=
  { slug := chars "lose-fat", memoryText := chars "memory: lose fat" }

/-- A verification-model reply accepting a merge into the candidate. -/
def exMergeResponses : List MergeAttempt :=
  [MergeAttempt.payload [(chars "action", JValue.str (chars "merge")),
                         (chars "target_slug", JValue.str (chars "lose-fat"))]]

/-- The check-in block of a payload accepted by the shape check even though a
required field (`evidence`) is the empty string. -/
def exShapeCheckinBlock : List (Str × JValue) :=
  [(chars "write", JValue.bool true), (chars "reason", JValue.str (chars "clear goal")),
   (chars "domain", JValue.str (chars "health")), (chars "track_type", JValue.str (chars "goal")),
   (chars "title", JValue.str (chars "t")), (chars "summary", JValue.str (chars "s")),
   (chars "outcome", JValue.str (chars "note")), (chars "evidence", JValue.str [])]

/-- A full decision payload with an empty required `evidence` string. -/
def exShapeAccepted : List (Str × JValue) :=
  [(chars "checkin", JValue.obj exShapeCheckinBlock),
   (chars "memory", JValue.obj [(chars "write", JValue.bool false),
                                (chars "reason", JValue.str (chars "no"))]),
   (chars "reason", JValue.str (chars "r"))]

/-- A ledger row occupying the key used by the duplicate-path runs. -/
def exWriteOpRow : WriteOpRow :=
  { id := 0, userId := 7, turnId := some 1, channel := chars "checkin", idemKey := chars "k"
    status := chars "applied", payloadHash := [], resultRef := none, errorText := none }

/-- A store whose ledger already owns the key `k` for user 7. -/
def exDupDB : DBState := { emptyDB with writeOps := [exWriteOpRow] }

/-- A check-in payload for concrete runs. -/
def exCheckinPayload : CheckinWrite :=
  { domain := chars "health", trackType := chars "goal", title := chars "Fat loss"
    summary := chars "sum", outcome := chars "note", confidence := none, wins := []
    barriers := [], nextActions := [], tags := [], evidence := chars "ev" }

/-- A memory payload with a non-blank narrative. -/
def exMemoryPayload : StorageMemoryPayload :=
  { domain := chars "health", title := chars "Tea", summary := chars "s"
    narrative := chars "likes tea", confidence := none, tags := [] }

/-- A memory payload whose narrative is blank. -/
def exMemoryPayloadBlankNarr : StorageMemoryPayload :=
  { domain := chars "health", title := chars "Tea", summary := chars "s2"
    narrative := [], confidence := none, tags := [] }

/-- The first write into the slug. -/
def exCall1 : MemoryCall :=
  { payload := exMemoryPayload, idemKey := chars "k1", turnId := 1, excerpt := chars "e"
    now := 5, nowIso := chars "2026-01-02T00:00:00" }

/-- A merge carrying a blank narrative. -/
def exCall2 : MemoryCall :=
  { payload := exMemoryPayloadBlankNarr, idemKey := chars "k2", turnId := 2
    excerpt := chars "e", now := 6, nowIso := chars "2026-01-03T00:00:00" }

/-- A merge carrying a non-blank narrative. -/
def exCall3 : MemoryCall :=
  { payload := { domain := chars "health", title := chars "Tea", summary := chars "s3"
                 narrative := chars "still likes tea", confidence := none, tags := [] }
    idemKey := chars "k3", turnId := 3, excerpt := chars "e", now := 7
    nowIso := chars "2026-01-04T00:00:00" }

end Mobius

namespace Mobius

theorem stripRightOn_eq_rdropWhile (p : Char → Bool) (s : Str) :
    stripRightOn p s = List.rdropWhile p s := rfl

theorem dropWhile_eq_self_of_prefix (p : Char → Bool) {x y : Str} (hxy : x <+: y)
    (hy : y.dropWhile p = y) : x.dropWhile p = x := by
  cases x with
  | nil => simp
  | cons c x' =>
    obtain ⟨t, ht⟩ := hxy
    rw [← ht] at hy
    by_cases hc : p c
    · rw [List.cons_append, List.dropWhile_cons, if_pos hc] at hy
      have hlen := congrArg List.length hy
      have hle : ((x' ++ t).dropWhile p).length ≤ (x' ++ t).length :=
        (List.dropWhile_suffix p).length_le
      simp at hlen hle
      omega
    · rw [List.dropWhile_cons, if_neg hc]

theorem pyStripOn_idem (p : Char → Bool) (s : Str) :
    pyStripOn p (pyStripOn p s) = pyStripOn p s := by
  unfold pyStripOn stripLeftOn
  rw [stripRightOn_eq_rdropWhile, stripRightOn_eq_rdropWhile]
  have h1 : (List.rdropWhile p (s.dropWhile p)).dropWhile p
      = List.rdropWhile p (s.dropWhile p) :=
    dropWhile_eq_self_of_prefix p (List.rdropWhile_prefix p (s.dropWhile p))
      (List.dropWhile_idempotent p s)
  rw [h1, List.rdropWhile_idempotent]

theorem pyStrip_idem (s : Str) : pyStrip (pyStrip s) = pyStrip s := pyStripOn_idem _ s

theorem normWs_pyStrip (s : Str) : normWs (pyStrip s) = normWs s := by
  unfold normWs
  rw [pyStrip_idem]

theorem containsEvidence_eq_false_of_not_infix (user ev : Str)
    (h : ¬ lowerStr (normWs ev) <:+: lowerStr (normWs user)) :
    containsEvidence user (pyStrip ev) = false := by
  simp only [containsEvidence, normWs_pyStrip]
  split
  · rfl
  · exact decide_eq_false h

end Mobius

namespace Mobius

theorem splitWsAux_wsfree (t : Str) (ht : wsFree t = true) (hne : t ≠ []) :
    ∀ acc : Str, splitWsAux t acc = [acc.reverse ++ t] := by
  induction t with
  | nil => exact absurd rfl hne
  | cons c rest ih =>
    intro acc
    simp only [wsFree, List.all_cons, Bool.and_eq_true, Bool.not_eq_true'] at ht
    obtain ⟨hc, hrest⟩ := ht
    simp only [splitWsAux, hc]
    cases rest with
    | nil => simp [splitWsAux]
    | cons c2 rest2 =>
      rw [if_neg (by simp [hc])]
      rw [ih hrest (by simp) (c :: acc)]
      simp

theorem splitWsAux_append_wsfree (t : Str) (ht : wsFree t = true) (hne : t ≠ []) :
    ∀ (y acc : Str), ∃ ws w, splitWsAux (y ++ t) acc = ws ++ [w] ∧ t <:+ w := by
  intro y
  induction y with
  | nil =>
    intro acc
    refine ⟨[], acc.reverse ++ t, ?_, List.suffix_append _ _⟩
    simpa using splitWsAux_wsfree t ht hne acc
  | cons c y' ih =>
    intro acc
    rw [List.cons_append]
    by_cases hc : isPyWs c = true
    · by_cases hacc : acc.isEmpty = true
      · obtain ⟨ws, w, heq, hsuf⟩ := ih []
        refine ⟨ws, w, ?_, hsuf⟩
        rw [splitWsAux, if_pos hc, if_pos hacc, heq]
      · obtain ⟨ws, w, heq, hsuf⟩ := ih []
        refine ⟨acc.reverse :: ws, w, ?_, hsuf⟩
        rw [splitWsAux, if_pos hc, if_neg hacc, heq]
        rfl
    · obtain ⟨ws, w, heq, hsuf⟩ := ih (c :: acc)
      refine ⟨ws, w, ?_, hsuf⟩
      rw [splitWsAux, if_neg hc, heq]

end Mobius

namespace Mobius

theorem joinSep_concat_suffix (sep : Str) (ws : List Str) (w : Str) :
    w <:+ joinSep sep (ws ++ [w]) := by
  cases ws with
  | nil => simp [joinSep]
  | cons a ws' =>
    refine ⟨a ++ (ws'.map (fun x => sep ++ x)).flatten ++ sep, ?_⟩
    simp [joinSep, List.append_assoc]

theorem mem_joinSep_infix (sep : Str) (parts : List Str) (tok : Str) (h : tok ∈ parts) :
    tok <:+: joinSep sep parts := by
  cases parts with
  | nil => simp at h
  | cons p rest =>
    rcases List.mem_cons.mp h with rfl | hmem
    · exact (List.prefix_append tok _).isInfix
    · have h1 : sep ++ tok ∈ rest.map (fun x => sep ++ x) := List.mem_map_of_mem _ hmem
      have h2 : (sep ++ tok) <:+: (rest.map (fun x => sep ++ x)).flatten :=
        List.infix_of_mem_flatten h1
      have h3 : tok <:+: sep ++ tok := (List.suffix_append sep tok).isInfix
      have h4 : (rest.map (fun x => sep ++ x)).flatten <:+
          p ++ (rest.map (fun x => sep ++ x)).flatten := List.suffix_append _ _
      exact (h3.trans h2).trans h4.isInfix

theorem wsFree_append (a b : Str) : wsFree (a ++ b) = (wsFree a && wsFree b) := by
  simp [wsFree, List.all_append]

theorem wsFree_flatten (L : List Str) (h : ∀ l ∈ L, wsFree l = true) :
    wsFree L.flatten = true := by
  induction L with
  | nil => rfl
  | cons x xs ih =>
    rw [List.flatten_cons, wsFree_append, Bool.and_eq_true]
    exact ⟨h x (by simp), ih (fun l hl => h l (by simp [hl]))⟩

theorem joinSep_wsfree (sep : Str) (parts : List Str) (hsep : wsFree sep = true)
    (h : ∀ w ∈ parts, wsFree w = true) : wsFree (joinSep sep parts) = true := by
  cases parts with
  | nil => rfl
  | cons p rest =>
    rw [joinSep, wsFree_append, Bool.and_eq_true]
    refine ⟨h p (by simp), wsFree_flatten _ ?_⟩
    intro l hl
    rcases List.mem_map.mp hl with ⟨w, hw, rfl⟩
    rw [wsFree_append, Bool.and_eq_true]
    exact ⟨hsep, h w (by simp [hw])⟩

theorem stripLeft_suffix_preserve {t s : Str} (ht : wsFree t = true) (hne : t ≠ [])
    (h : t <:+ s) : t <:+ stripLeftOn isPyWs s := by
  induction s with
  | nil =>
    rw [List.suffix_nil] at h
    exact absurd h hne
  | cons c s' ih =>
    unfold stripLeftOn
    rw [List.dropWhile_cons]
    by_cases hc : isPyWs c = true
    · rw [if_pos hc]
      rcases List.suffix_cons_iff.mp h with rfl | hsuf
      · exfalso
        simp only [wsFree, List.all_cons, Bool.and_eq_true, Bool.not_eq_true'] at ht
        rw [ht.1] at hc
        exact Bool.false_ne_true hc
      · exact ih hsuf
    · rw [if_neg hc]
      exact h

theorem stripRight_eq_of_suffix_wsfree {t x : Str} (ht : wsFree t = true) (hne : t ≠ [])
    (h : t <:+ x) : stripRightOn isPyWs x = x := by
  rcases List.eq_nil_or_concat t with rfl | ⟨t0, b, rfl⟩
  · exact absurd rfl hne
  · simp only [List.concat_eq_append] at ht h
    obtain ⟨u, hu⟩ := h
    have hb : isPyWs b = false := by
      simp only [wsFree, List.all_append, List.all_cons, List.all_nil, Bool.and_eq_true,
        Bool.not_eq_true'] at ht
      exact ht.2.1
    rw [stripRightOn_eq_rdropWhile, ← hu, ← List.append_assoc]
    exact List.rdropWhile_concat_neg _ _ _ (by simp [hb])

theorem pyStrip_suffix_of_wsfree {t s : Str} (ht : wsFree t = true) (hne : t ≠ [])
    (h : t <:+ s) : t <:+ pyStrip s := by
  have h1 : t <:+ stripLeftOn isPyWs s := stripLeft_suffix_preserve ht hne h
  unfold pyStrip pyStripOn
  rw [stripRight_eq_of_suffix_wsfree ht hne h1]
  exact h1

theorem cleanReason_suffix_of_wsfree {t s : Str} (ht : wsFree t = true) (hne : t ≠ [])
    (h : t <:+ s) : t <:+ cleanReason s := by
  obtain ⟨y, rfl⟩ := h
  obtain ⟨ws, w, heq, hsuf⟩ := splitWsAux_append_wsfree t ht hne y []
  unfold cleanReason joinSp splitWs
  rw [heq]
  have h2 : t <:+ joinSep (chars " ") (ws ++ [w]) :=
    hsuf.trans (joinSep_concat_suffix _ ws w)
  exact pyStrip_suffix_of_wsfree ht hne h2

end Mobius

namespace Mobius

theorem joined_suffix_combineReason (base : Str) (parts : List Str) (hne : parts ≠ []) :
    joinSep (chars ",") parts <:+ combineReason base parts := by
  unfold combineReason
  rw [if_neg (by simpa [List.isEmpty_iff] using hne)]
  split
  · exact List.suffix_rfl
  · exact List.suffix_append _ _

theorem token_infix_cleanReason_combine (base : Str) (parts : List Str) (tok : Str)
    (hmem : tok ∈ parts) (hws : ∀ w ∈ parts, wsFree w = true) (htok : tok ≠ []) :
    tok <:+: cleanReason (combineReason base parts) ∧
      cleanReason (combineReason base parts) ≠ [] := by
  have hne : parts ≠ [] := by rintro rfl; simp at hmem
  have hjw : wsFree (joinSep (chars ",") parts) = true :=
    joinSep_wsfree _ _ (by decide) hws
  have hinf : tok <:+: joinSep (chars ",") parts := mem_joinSep_infix _ _ _ hmem
  have hjne : joinSep (chars ",") parts ≠ [] := by
    intro h0
    rw [h0, List.infix_nil] at hinf
    exact htok hinf
  have hclean : joinSep (chars ",") parts <:+ cleanReason (combineReason base parts) :=
    cleanReason_suffix_of_wsfree hjw hjne (joined_suffix_combineReason base parts hne)
  refine ⟨hinf.trans hclean.isInfix, ?_⟩
  intro h0
  rw [h0, List.suffix_nil] at hclean
  exact hjne hclean

theorem dwcr_checkin (d : StateDecision) :
    (decisionWithChannelReasons d).checkin = d.checkin := rfl

theorem dwcr_memory (d : StateDecision) :
    (decisionWithChannelReasons d).memory = d.memory := rfl

theorem dwcr_reason (d : StateDecision) :
    (decisionWithChannelReasons d).reason =
      if (cleanReason d.reason).isEmpty then chars "state-model" else cleanReason d.reason := rfl

theorem applyGroundingGuards_main (strict facts : Bool) (d : StateDecision) (u : Str)
    (hsf : strict = true ∨ facts = true) :
    applyGroundingGuards strict facts d u =
      decisionWithChannelReasons
        { checkin := (groundCheckin strict facts u d.checkin (cleanReason d.checkinReason)).1
          memory := (groundMemory strict facts u d.memory (cleanReason d.memoryReason)).1
          checkinReason := (groundCheckin strict facts u d.checkin (cleanReason d.checkinReason)).2.1
          memoryReason := (groundMemory strict facts u d.memory (cleanReason d.memoryReason)).2.1
          reason := combineReason d.reason
            ((groundCheckin strict facts u d.checkin (cleanReason d.checkinReason)).2.2.toList ++
             (groundMemory strict facts u d.memory (cleanReason d.memoryReason)).2.2.toList)
          sourceModel := d.sourceModel
          isFailure := d.isFailure } := by
  rcases hsf with rfl | rfl
  · rw [applyGroundingGuards, if_neg (by simp)]
  · rw [applyGroundingGuards, if_neg (by simp)]

theorem groundMemory_tag (strict facts : Bool) (u : Str) (m : Option MemoryWrite) (r : Str) :
    (groundMemory strict facts u m r).2.2 = none ∨
    (groundMemory strict facts u m r).2.2 = some (chars "memory-filtered-missing-evidence") ∨
    (groundMemory strict facts u m r).2.2 = some (chars "memory-filtered-ambiguous") := by
  rcases m with _ | mw
  · left; rfl
  · simp only [groundMemory]
    repeat' split
    all_goals simp

theorem groundCheckin_tag (strict facts : Bool) (u : Str) (c : Option CheckinWrite) (r : Str) :
    (groundCheckin strict facts u c r).2.2 = none ∨
    (groundCheckin strict facts u c r).2.2 = some (chars "check-in-filtered-missing-evidence") := by
  rcases c with _ | cw
  · left; rfl
  · simp only [groundCheckin]
    repeat' split
    all_goals simp

end Mobius

namespace Mobius

theorem groundCheckin_filtered (facts : Bool) (u : Str) (cw : CheckinWrite) (r : Str)
    (hce : containsEvidence u (pyStrip cw.evidence) = false) :
    groundCheckin true facts u (some cw) r =
      (none, chars "filtered out: evidence not found in user text",
       some (chars "check-in-filtered-missing-evidence")) := by
  simp [groundCheckin, hce]

theorem groundMemory_filtered (facts : Bool) (u : Str) (mw : MemoryWrite) (r : Str)
    (hce : containsEvidence u (pyStrip mw.evidence) = false) :
    groundMemory true facts u (some mw) r =
      (none, chars "filtered out: evidence not found in user text",
       some (chars "memory-filtered-missing-evidence")) := by
  simp [groundMemory, hce]

/-- C3: with strict grounding on, an ungrounded write is dropped from the
grounded decision and the machine-readable channel tag lands in the reason. -/
theorem c3_strict_grounding_filters_ungrounded (facts : Bool) (d : StateDecision)
    (userText : Str) :
    (∀ cw, d.checkin = some cw →
      ¬ lowerStr (normWs cw.evidence) <:+: lowerStr (normWs userText) →
      (applyGroundingGuards true facts d userText).checkin = none ∧
      chars "check-in-filtered-missing-evidence" <:+:
        (applyGroundingGuards true facts d userText).reason) ∧
    (∀ mw, d.memory = some mw →
      ¬ lowerStr (normWs mw.evidence) <:+: lowerStr (normWs userText) →
      (applyGroundingGuards true facts d userText).memory = none ∧
      chars "memory-filtered-missing-evidence" <:+:
        (applyGroundingGuards true facts d userText).reason) := by
  have hmain := applyGroundingGuards_main true facts d userText (Or.inl rfl)
  constructor
  · intro cw hcw hinf
    have hce : containsEvidence userText (pyStrip cw.evidence) = false :=
      containsEvidence_eq_false_of_not_infix userText cw.evidence hinf
    have hgc : groundCheckin true facts userText d.checkin (cleanReason d.checkinReason) =
        (none, chars "filtered out: evidence not found in user text",
         some (chars "check-in-filtered-missing-evidence")) := by
      rw [hcw]
      exact groundCheckin_filtered facts userText cw _ hce
    constructor
    · rw [hmain, dwcr_checkin]
      simp only [hgc]
    · rw [hmain, dwcr_reason]
      simp only [hgc, Option.toList_some, List.singleton_append]
      set memTags :=
        (groundMemory true facts userText d.memory (cleanReason d.memoryReason)).2.2.toList with hmem
      have hws : ∀ w ∈ chars "check-in-filtered-missing-evidence" :: memTags, wsFree w = true := by
        intro w hw
        rcases List.mem_cons.mp hw with rfl | hw2
        · decide
        · rcases groundMemory_tag true facts userText d.memory (cleanReason d.memoryReason)
            with h | h | h <;> rw [hmem, h] at hw2 <;> simp at hw2 <;> subst hw2 <;> decide
      obtain ⟨hinf2, hne2⟩ := token_infix_cleanReason_combine d.reason
        (chars "check-in-filtered-missing-evidence" :: memTags)
        (chars "check-in-filtered-missing-evidence") (by simp) hws (by decide)
      rw [if_neg (by simpa [List.isEmpty_iff] using hne2)]
      exact hinf2
  · intro mw hmw hinf
    have hce : containsEvidence userText (pyStrip mw.evidence) = false :=
      containsEvidence_eq_false_of_not_infix userText mw.evidence hinf
    have hgm : groundMemory true facts userText d.memory (cleanReason d.memoryReason) =
        (none, chars "filtered out: evidence not found in user text",
         some (chars "memory-filtered-missing-evidence")) := by
      rw [hmw]
      exact groundMemory_filtered facts userText mw _ hce
    constructor
    · rw [hmain, dwcr_memory]
      simp only [hgm]
    · rw [hmain, dwcr_reason]
      simp only [hgm, Option.toList_some]
      set ckTags :=
        (groundCheckin true facts userText d.checkin (cleanReason d.checkinReason)).2.2.toList with hck
      have hws : ∀ w ∈ ckTags ++ [chars "memory-filtered-missing-evidence"], wsFree w = true := by
        intro w hw
        rcases List.mem_append.mp hw with hw2 | hw2
        · rcases groundCheckin_tag true facts userText d.checkin (cleanReason d.checkinReason)
            with h | h <;> rw [hck, h] at hw2 <;> simp at hw2 <;> subst hw2 <;> decide
        · simp at hw2
          subst hw2
          decide
      obtain ⟨hinf2, hne2⟩ := token_infix_cleanReason_combine d.reason
        (ckTags ++ [chars "memory-filtered-missing-evidence"])
        (chars "memory-filtered-missing-evidence") (by simp) hws (by decide)
      rw [if_neg (by simpa [List.isEmpty_iff] using hne2)]
      exact hinf2

end Mobius

namespace Mobius

theorem llmMergeDecision_merge_of_some (rs : List MergeAttempt) (s : Str)
    (h : llmMergeDecision rs = some s) :
    s ≠ [] ∧ ∃ p, MergeAttempt.payload p ∈ rs ∧ mergeActionOf p = chars "merge" ∧
      mergeTargetOf p = s := by
  induction rs with
  | nil => simp [llmMergeDecision] at h
  | cons r rest ih =>
    cases r with
    | err =>
      rw [llmMergeDecision] at h
      obtain ⟨h1, p, hp, ha, ht⟩ := ih h
      exact ⟨h1, p, by simp [hp], ha, ht⟩
    | payload p =>
      rw [llmMergeDecision] at h
      by_cases h0 : p.isEmpty = true
      · rw [if_pos h0] at h
        obtain ⟨h1, q, hq, ha, ht⟩ := ih h
        exact ⟨h1, q, by simp [hq], ha, ht⟩
      · rw [if_neg h0] at h
        by_cases h1 : ((mergeActionOf p = chars "merge") && !(mergeTargetOf p).isEmpty) = true
        · rw [if_pos h1] at h
          have h1' : mergeActionOf p = chars "merge" ∧ mergeTargetOf p ≠ [] := by
            simpa [List.isEmpty_iff] using h1
          have hs : mergeTargetOf p = s := Option.some.inj h
          refine ⟨?_, p, by simp, h1'.1, hs⟩
          rw [← hs]
          exact h1'.2
        · rw [if_neg h1] at h
          by_cases h2 : (mergeActionOf p = chars "new")
          · rw [if_pos h2] at h
            exact absurd h (by simp)
          · rw [if_neg h2] at h
            obtain ⟨h3, q, hq, ha, ht⟩ := ih h
            exact ⟨h3, q, by simp [hq], ha, ht⟩

/-- C6: the semantic merge resolver returns a slug only when some
verification-model reply was `action=merge` with that (non-empty) slug as its
`target_slug`, and the slug is one of the shortlisted (slug-keyed union)
candidate slugs; all other outcomes resolve to none. -/
theorem c6_merge_resolver_only_accepts_shortlisted (enabled : Bool)
    (recency semantic : List CandidateRow) (maxJsonRetries : Nat)
    (responses : List MergeAttempt) (s : Str)
    (h : resolveSemanticMergeSlug enabled recency semantic maxJsonRetries responses = some s) :
    s ∈ (mergedCandidates semantic recency).map Prod.fst ∧ s ≠ [] ∧
    ∃ p, MergeAttempt.payload p ∈ responses ∧ mergeActionOf p = chars "merge" ∧
      mergeTargetOf p = s := by
  unfold resolveSemanticMergeSlug at h
  by_cases he : (!enabled) = true
  · rw [if_pos he] at h
    exact absurd h (by simp)
  · rw [if_neg he] at h
    by_cases hr : recency.isEmpty = true
    · rw [if_pos hr] at h
      exact absurd h (by simp)
    · rw [if_neg hr] at h
      by_cases hm : (mergedCandidates semantic recency).isEmpty = true
      · rw [if_pos hm] at h
        exact absurd h (by simp)
      · rw [if_neg hm] at h
        rcases hd : llmMergeDecision (responses.take (1 + maxJsonRetries)) with _ | s0
        · rw [hd] at h
          exact absurd h (by simp)
        · rw [hd] at h
          dsimp only at h
          obtain ⟨hne, p, hp, ha, ht⟩ := llmMergeDecision_merge_of_some _ _ hd
          by_cases hmem : s0 ∈ (mergedCandidates semantic recency).map Prod.fst
          · rw [if_pos hmem] at h
            have hs : s0 = s := Option.some.inj h
            subst hs
            exact ⟨hmem, hne, p, List.take_subset _ _ hp, ha, ht⟩
          · rw [if_neg hmem] at h
            exact absurd h (by simp)

end Mobius

namespace Mobius

theorem isStrOpt_iff (v : Option JValue) : isStrOpt v = true ↔ ∃ s, v = some (JValue.str s) := by
  cases v with
  | none => simp [isStrOpt]
  | some j => cases j <;> simp [isStrOpt]

theorem isObjOpt_iff (v : Option JValue) :
    isObjOpt v = true ↔ ∃ b, v = some (JValue.obj b) := by
  cases v with
  | none => simp [isObjOpt]
  | some j => cases j <;> simp [isObjOpt]

theorem blockShapeOk_iff (b : List (Str × JValue)) (required : List Str) :
    blockShapeOk b required = true ↔ BlockShapeSpec b required := by
  unfold blockShapeOk BlockShapeSpec
  rcases hw : jget b (chars "write") with _ | jw
  · simp [hw]
  · cases jw <;> simp only [hw]
    case bool w =>
      rcases hr : jget b (chars "reason") with _ | jr
      · simp [hr]
      · cases jr <;> simp only [hr]
        case str r =>
          constructor
          · intro h
            rw [Bool.and_eq_true] at h
            obtain ⟨hrne, hreq⟩ := h
            refine ⟨⟨w, rfl, ?_⟩, ⟨r, rfl, by simpa [List.isEmpty_iff] using hrne⟩⟩
            intro hwt k hk
            rw [hwt] at hreq
            rw [if_pos rfl] at hreq
            have := List.all_eq_true.mp hreq k hk
            exact (isStrOpt_iff _).mp this
          · rintro ⟨⟨w', hw', hreq⟩, ⟨r', hr', hrne⟩⟩
            have hww : w' = w := by simpa using hw'.symm
            have hrr : r' = r := by simpa using hr'.symm
            subst hww
            subst hrr
            rw [Bool.and_eq_true]
            refine ⟨by simpa [List.isEmpty_iff] using hrne, ?_⟩
            cases w' with
            | false => simp
            | true =>
              rw [if_pos rfl]
              exact List.all_eq_true.mpr (fun k hk => (isStrOpt_iff _).mpr (hreq rfl k hk))
        all_goals simp [hr]
    all_goals
      first
        | simp
        | (constructor
           · intro h
             exact absurd h (by simp)
           · rintro ⟨⟨w', hw', _⟩, _⟩
             simp at hw')

end Mobius

namespace Mobius

theorem channelBlockOk_iff (p : List (Str × JValue)) (name : Str) (required : List Str) :
    channelBlockOk p name required = true ↔
      ∃ b, jget p name = some (JValue.obj b) ∧ BlockShapeSpec b required := by
  unfold channelBlockOk
  rcases h : jget p name with _ | j
  · simp
  · cases j with
    | obj b => simp only [h, Option.some.injEq, JValue.obj.injEq]
               rw [blockShapeOk_iff]
               constructor
               · intro hb
                 exact ⟨b, rfl, hb⟩
               · rintro ⟨b', hb', hs⟩
                 exact hb' ▸ hs
    | str s => simp [h]
    | bool b => simp [h]
    | num n => simp [h]
    | null => simp [h]
    | arr xs => simp [h]

/-- C8 (amended): the decision payload shape check accepts exactly the
payloads with both channel blocks as objects carrying a boolean `write` and a
non-blank string `reason`, with every channel-required field present as a
string (possibly empty) when `write` is true, plus a top-level string
`reason`; a payload failing the check makes the retry loop continue. -/
theorem c8_shape_check_iff_spec :
    (∀ p, payloadHasRequiredShape p = true ↔ ShapeSpec p) ∧
    (∀ (rest : List DecisionAttempt) (p : List (Str × JValue)),
      payloadHasRequiredShape p = false →
      decideLoopAccepted (DecisionAttempt.text (some p) :: rest) = decideLoopAccepted rest) := by
  constructor
  · intro p
    unfold payloadHasRequiredShape ShapeSpec
    constructor
    · intro h
      simp only [Bool.and_eq_true] at h
      obtain ⟨⟨⟨⟨⟨⟨⟨h1, h2⟩, h3⟩, h4⟩, h5⟩, h6⟩, h7⟩, h8⟩ := h
      obtain ⟨cb, hcb, hcbs⟩ := (channelBlockOk_iff p _ _).mp h7
      obtain ⟨mb, hmb, hmbs⟩ := (channelBlockOk_iff p _ _).mp h8
      obtain ⟨r, hr⟩ := (isStrOpt_iff _).mp h6
      exact ⟨⟨cb, hcb, hcbs⟩, ⟨mb, hmb, hmbs⟩, ⟨r, hr⟩⟩
    · rintro ⟨⟨cb, hcb, hcbs⟩, ⟨mb, hmb, hmbs⟩, ⟨r, hr⟩⟩
      simp only [Bool.and_eq_true]
      refine ⟨⟨⟨⟨⟨⟨⟨?_, ?_⟩, ?_⟩, ?_⟩, ?_⟩, ?_⟩, ?_⟩, ?_⟩
      · rw [hcb]; rfl
      · rw [hmb]; rfl
      · rw [hr]; rfl
      · rw [hcb]; rfl
      · rw [hmb]; rfl
      · rw [hr]; rfl
      · exact (channelBlockOk_iff p _ _).mpr ⟨cb, hcb, hcbs⟩
      · exact (channelBlockOk_iff p _ _).mpr ⟨mb, hmb, hmbs⟩
  · intro rest p h
    simp [decideLoopAccepted, h]

end Mobius

namespace Mobius

/-- C10: with both grounding flags off, the guard is exactly the
reason-normalization pass and leaves both channel payloads untouched. -/
theorem c10_guard_identity_when_flags_off (d : StateDecision) (userText : Str) :
    applyGroundingGuards false false d userText = decisionWithChannelReasons d ∧
    (applyGroundingGuards false false d userText).checkin = d.checkin ∧
    (applyGroundingGuards false false d userText).memory = d.memory :=
  ⟨rfl, rfl, rfl⟩

/-- C5 (amended): whenever at least one grounding flag is on, a memory write
whose evidence-derived text opens with an ambiguous anaphor is dropped. -/
theorem c5_ambiguous_memory_dropped (strict facts : Bool) (d : StateDecision) (u : Str)
    (mw : MemoryWrite) (hsf : strict = true ∨ facts = true) (hmw : d.memory = some mw)
    (hamb : looksAmbiguousMemory
      (if (pyStrip mw.evidence).isEmpty then mw.memory else pyStrip mw.evidence) = true) :
    (applyGroundingGuards strict facts d u).memory = none := by
  rw [applyGroundingGuards_main strict facts d u hsf, dwcr_memory, hmw]
  simp only [groundMemory]
  by_cases h1 : (strict && !containsEvidence u (pyStrip mw.evidence)) = true
  · rw [if_pos h1]
  · rw [if_neg h1, if_pos hamb]

/-- C4 (amended): with `facts_only` on, a surviving memory write carries the
trimmed evidence as its text when the evidence is non-blank, and the trimmed
model text when the evidence strips to nothing. -/
theorem c4_facts_only_memory_text (strict : Bool) (d : StateDecision) (u : Str)
    (mw m' : MemoryWrite) (hmw : d.memory = some mw)
    (hres : (applyGroundingGuards strict true d u).memory = some m') :
    m'.memory =
      (if (pyStrip mw.evidence).isEmpty then pyStrip mw.memory else pyStrip mw.evidence) ∧
    m'.evidence = pyStrip mw.evidence ∧ m'.domain = mw.domain := by
  rw [applyGroundingGuards_main strict true d u (Or.inr rfl), dwcr_memory, hmw] at hres
  simp only [groundMemory] at hres
  by_cases h1 : (strict && !containsEvidence u (pyStrip mw.evidence)) = true
  · rw [if_pos h1] at hres
    exact absurd hres (by simp)
  · rw [if_neg h1] at hres
    by_cases h2 : looksAmbiguousMemory
        (if (pyStrip mw.evidence).isEmpty then mw.memory else pyStrip mw.evidence) = true
    · rw [if_pos h2] at hres
      exact absurd hres (by simp)
    · rw [if_neg h2, if_true] at hres
      have hm' := (Option.some.inj hres).symm
      subst hm'
      by_cases hev : (pyStrip mw.evidence).isEmpty = true
      · simp [hev]
      · simp [hev, pyStrip_idem]

end Mobius

namespace Mobius

/-- C2 (amended): while the hardcoded pause flag is set, `process_turn` is a
no-op returning the empty footer, and the read path `context_for_prompt` is
disabled as well, returning the empty string. -/
theorem c2_pause_disables_writes_and_reads (flags : PipelineFlags) (steps : TurnSteps)
    (strict facts : Bool) (onFailure : Str) (requestUser : Option Str) (anon : Str)
    (userText requestHash : Str) (pre : Option StateDecision) (st : DBState)
    (fetch : Except PyErr StateContextSnapshot)
    (hp : flags.writesTemporarilyPaused = true) :
    processTurn flags steps strict facts onFailure requestUser anon userText requestHash
      pre st = (st, []) ∧
    contextForPrompt flags fetch = [] ∧
    pipelineInitWritesPaused = true := by
  refine ⟨?_, ?_, rfl⟩
  · rw [processTurn, if_pos (by simp [hp])]
  · simp [contextForPrompt, hp]

/-- C9: any exception raised by a collaborator inside `process_turn`'s try
block is caught and converted into the empty footer. -/
theorem c9_process_turn_swallows_exceptions (flags : PipelineFlags) (steps : TurnSteps)
    (strict facts : Bool) (onFailure : Str) (requestUser : Option Str) (anon : Str)
    (userText requestHash : Str) (pre : Option StateDecision) (st : DBState) (e : PyErr)
    (h : (processTurnBody steps strict facts onFailure (resolveUserKey requestUser anon)
      userText requestHash pre st).2 = Except.error e) :
    (processTurn flags steps strict facts onFailure requestUser anon userText requestHash
      pre st).2 = [] := by
  rw [processTurn]
  by_cases hgate : (!flags.enabled || flags.writesTemporarilyPaused) = true
  · rw [if_pos hgate]
  · rw [if_neg hgate]
    rcases hb : processTurnBody steps strict facts onFailure (resolveUserKey requestUser anon)
      userText requestHash pre st with ⟨st1, r⟩
    rw [hb] at h
    simp only at h
    subst h
    simp [hb]

end Mobius

namespace Mobius

theorem findWriteOp_isSome_of_hasOpKey {st : DBState} {u : Nat} {k : Str}
    (h : hasOpKey st u k) : ∃ op, findWriteOp st u k = some op := by
  have h1 : (findWriteOp st u k).isSome := by
    unfold findWriteOp
    rw [List.find?_isSome]
    obtain ⟨op, hmem, h1, h2⟩ := h
    exact ⟨op, hmem, by simp [h1, h2]⟩
  exact Option.isSome_iff_exists.mp h1

theorem findWriteOp_eq_none_of_not_hasOpKey {st : DBState} {u : Nat} {k : Str}
    (h : ¬ hasOpKey st u k) : findWriteOp st u k = none := by
  unfold findWriteOp
  rw [List.find?_eq_none]
  intro op hmem
  simp only [decide_eq_true_eq]
  rintro ⟨h1, h2⟩
  exact h ⟨op, hmem, h1, h2⟩

/-- C1: the ledger is consulted first inside the write transaction; a prior
row for the key yields `skipped_duplicate` with the store untouched, and a
fresh key commits the ledger row and the domain mutation atomically. -/
theorem c1_idempotent_ledger_protocol (st : DBState) (u turnId : Nat) (cp : CheckinWrite)
    (mp : StorageMemoryPayload) (ckey mkey : Str) (srcModel : Option Str) (excerpt : Str)
    (mergeSlug : Option Str) (now : Nat) (nowIso : Str) :
    (hasOpKey st u ckey →
      (writeCheckin st u turnId cp ckey srcModel now).1 = st ∧
      (writeCheckin st u turnId cp ckey srcModel now).2.status = chars "skipped_duplicate") ∧
    (hasOpKey st u mkey →
      (writeMemory st u turnId mp mkey excerpt mergeSlug now nowIso).1 = st ∧
      (writeMemory st u turnId mp mkey excerpt mergeSlug now nowIso).2.status =
        chars "skipped_duplicate") ∧
    (¬ hasOpKey st u ckey →
      (writeCheckin st u turnId cp ckey srcModel now).2.status = chars "applied" ∧
      (∃ op ∈ (writeCheckin st u turnId cp ckey srcModel now).1.writeOps,
        op.userId = u ∧ op.idemKey = ckey ∧ op.status = chars "applied") ∧
      (writeCheckin st u turnId cp ckey srcModel now).1.checkinEvents.length =
        st.checkinEvents.length + 1) ∧
    (¬ hasOpKey st u mkey →
      (writeMemory st u turnId mp mkey excerpt mergeSlug now nowIso).2.status =
        chars "applied" ∧
      (∃ op ∈ (writeMemory st u turnId mp mkey excerpt mergeSlug now nowIso).1.writeOps,
        op.userId = u ∧ op.idemKey = mkey ∧ op.status = chars "applied") ∧
      (writeMemory st u turnId mp mkey excerpt mergeSlug now nowIso).1.memoryEvidence.length =
        st.memoryEvidence.length + 1) := by
  refine ⟨?_, ?_, ?_, ?_⟩
  · intro h
    obtain ⟨op, hop⟩ := findWriteOp_isSome_of_hasOpKey h
    constructor <;> simp [writeCheckin, beginWriteOperation, hop]
  · intro h
    obtain ⟨op, hop⟩ := findWriteOp_isSome_of_hasOpKey h
    constructor <;> simp [writeMemory, beginWriteOperation, hop]
  · intro h
    have hnone := findWriteOp_eq_none_of_not_hasOpKey h
    simp only [writeCheckin, beginWriteOperation, hnone]
    rw [if_neg (by simp)]
    rcases htr : List.find? (fun t => decide (t.userId = u ∧ t.slug = checkinTrackSlug cp))
        st.tracks with _ | t
    all_goals
      simp only [htr, finishWriteOperation]
      refine ⟨by trivial, ⟨_, List.mem_map_of_mem _
        (List.mem_append_right _ (List.mem_singleton.mpr rfl)), by simp⟩, by simp⟩
  · intro h
    have hnone := findWriteOp_eq_none_of_not_hasOpKey h
    simp only [writeMemory, beginWriteOperation, hnone, findMemoryCard]
    rw [if_neg (by simp)]
    rcases hmc : List.find? (fun c => decide (c.userId = u ∧ c.domain = mp.domain ∧
        c.slug = if (mergeSlug.getD []).isEmpty then slugify mp.title (chars "user-memory")
          else mergeSlug.getD [])) st.memoryCards with _ | c
    all_goals
      simp only [hmc, finishWriteOperation]
      refine ⟨by trivial, ⟨_, List.mem_map_of_mem _
        (List.mem_append_right _ (List.mem_singleton.mpr rfl)), by simp⟩, by simp⟩

end Mobius

namespace Mobius

theorem find?_map_pred_preserve {α : Type} (l : List α) (g : α → α) (p : α → Bool)
    (hg : ∀ x, p (g x) = p x) : (l.map g).find? p = (l.find? p).map g := by
  induction l with
  | nil => rfl
  | cons a l ih =>
    rw [List.map_cons, List.find?_cons, List.find?_cons, hg a]
    cases hpa : p a
    · exact ih
    · rfl

theorem writeMemory_applied_hasOpKey (st : DBState) (u turnId : Nat)
    (p : StorageMemoryPayload) (key excerpt : Str) (ms : Option Str) (now : Nat)
    (iso : Str) (hnone : findWriteOp st u key = none) :
    ∀ k, hasOpKey (writeMemory st u turnId p key excerpt ms now iso).1 u k ↔
      (k = key ∨ hasOpKey st u k) := by
  intro k
  simp only [writeMemory, beginWriteOperation, hnone, findMemoryCard]
  rw [if_neg (by simp)]
  rcases hmc : List.find? (fun c => decide (c.userId = u ∧ c.domain = p.domain ∧
      c.slug = if (ms.getD []).isEmpty then slugify p.title (chars "user-memory")
        else ms.getD [])) st.memoryCards with _ | c
  all_goals
    simp only [hmc, finishWriteOperation, hasOpKey, List.mem_map, List.mem_append,
      List.mem_singleton]
    constructor
    · rintro ⟨op, ⟨x, hx | rfl, rfl⟩, h1, h2⟩
      · right
        refine ⟨x, hx, ?_, ?_⟩
        · revert h1
          split
          · intro h1; simpa using h1
          · exact id
        · revert h2
          split
          · intro h2; simpa using h2
          · exact id
      · left
        revert h2
        split
        · intro h2; simpa using h2.symm
        · intro h2; simpa using h2.symm
    · rintro (rfl | ⟨x, hx, h1, h2⟩)
      · refine ⟨_, ⟨_, Or.inr rfl, rfl⟩, ?_, ?_⟩
        · split
          · simp
          · simp
        · split
          · simp
          · simp
      · refine ⟨_, ⟨x, Or.inl hx, rfl⟩, ?_, ?_⟩
        · split
          · simpa using h1
          · exact h1
        · split
          · simpa using h2
          · exact h2

end Mobius

namespace Mobius

theorem writeMemory_insert_card (st : DBState) (u turnId : Nat) (p : StorageMemoryPayload)
    (key excerpt : Str) (slug : Str) (now : Nat) (iso : Str) (hslug : slug ≠ [])
    (hnone : findWriteOp st u key = none)
    (hnocard : findMemoryCard st u p.domain slug = none) :
    ∃ c, findMemoryCard (writeMemory st u turnId p key excerpt (some slug) now iso).1
        u p.domain slug = some c ∧
      c.occurrences = 1 ∧ c.narrative = p.narrative := by
  have hms : slug.isEmpty = false := by simpa [List.isEmpty_iff] using hslug
  simp only [writeMemory, beginWriteOperation, hnone, Option.getD_some, hms,
    Bool.false_eq_true, if_false, findMemoryCard]
  rw [if_neg (by simp)]
  have hfind : List.find? (fun c => decide (c.userId = u ∧ c.domain = p.domain ∧
      c.slug = slug)) st.memoryCards = none := by
    simpa [findMemoryCard] using hnocard
  rw [hfind]
  simp only [finishWriteOperation]
  refine ⟨{ id := st.nextId + 1
            userId := u
            domain := p.domain
            slug := slug
            title := p.title
            summary := p.summary
            narrative := p.narrative
            firstSeen := now
            lastSeen := now
            occurrences := 1
            confidence := p.confidence
            tags := p.tags
            sourceTurnId := turnId
            updatedAt := now }, ?_, rfl, rfl⟩
  rw [List.find?_append, hfind]
  simp

theorem writeMemory_merge_card (st : DBState) (u turnId : Nat) (p : StorageMemoryPayload)
    (key excerpt : Str) (slug : Str) (now : Nat) (iso : Str) (hslug : slug ≠ [])
    (hnone : findWriteOp st u key = none) (c : MemoryCardRow)
    (hc : findMemoryCard st u p.domain slug = some c) (hocc : 1 ≤ c.occurrences) :
    ∃ c2, findMemoryCard (writeMemory st u turnId p key excerpt (some slug) now iso).1
        u p.domain slug = some c2 ∧
      c2.occurrences = c.occurrences + 1 ∧
      c2.narrative = mergeNarrative c.narrative iso p.narrative := by
  have hms : slug.isEmpty = false := by simpa [List.isEmpty_iff] using hslug
  simp only [writeMemory, beginWriteOperation, hnone, Option.getD_some, hms,
    Bool.false_eq_true, if_false, findMemoryCard]
  rw [if_neg (by simp)]
  have hfind : List.find? (fun cc => decide (cc.userId = u ∧ cc.domain = p.domain ∧
      cc.slug = slug)) st.memoryCards = some c := by
    simpa [findMemoryCard] using hc
  rw [hfind]
  simp only [finishWriteOperation]
  have hocc0 : ¬ c.occurrences = 0 := by omega
  refine ⟨{ id := c.id
            userId := c.userId
            domain := c.domain
            slug := c.slug
            title := p.title
            summary := p.summary
            narrative := mergeNarrative c.narrative iso p.narrative
            firstSeen := c.firstSeen
            lastSeen := now
            occurrences := (if c.occurrences = 0 then 1 else c.occurrences) + 1
            confidence := p.confidence
            tags := p.tags
            sourceTurnId := turnId
            updatedAt := now }, ?_, by simp [hocc0], rfl⟩
  rw [find?_map_pred_preserve _ _ _ ?b, hfind]
  case b =>
    intro x
    split
    · simp
    · rfl
  simp

end Mobius

namespace Mobius

theorem applyMemoryCalls_merge_run (u : Nat) (slug d : Str) (hslug : slug ≠ []) :
    ∀ (cs : List MemoryCall) (st : DBState) (c0 : MemoryCardRow),
      findMemoryCard st u d slug = some c0 → 1 ≤ c0.occurrences →
      (∀ call ∈ cs, call.payload.domain = d) →
      (∀ call ∈ cs, ¬ hasOpKey st u call.idemKey) →
      (cs.map MemoryCall.idemKey).Nodup →
      ∃ c, findMemoryCard (applyMemoryCalls u slug st cs) u d slug = some c ∧
        c.occurrences = c0.occurrences + cs.length ∧
        c.narrative = narrativeAfterCalls c0.narrative cs := by
  intro cs
  induction cs with
  | nil =>
    intro st c0 hc0 _ _ _ _
    exact ⟨c0, hc0, by simp, rfl⟩
  | cons call rest ih =>
    intro st c0 hc0 hocc hdom hfresh hnodup
    have hd : call.payload.domain = d := hdom call (by simp)
    have hk : ¬ hasOpKey st u call.idemKey := hfresh call (by simp)
    have hnone := findWriteOp_eq_none_of_not_hasOpKey hk
    obtain ⟨c1, hc1, hocc1, hnarr1⟩ := writeMemory_merge_card st u call.turnId call.payload
      call.idemKey call.excerpt slug call.now call.nowIso hslug hnone c0
      (by rw [hd]; exact hc0) hocc
    rw [hd] at hc1
    have hkeys := writeMemory_applied_hasOpKey st u call.turnId call.payload call.idemKey
      call.excerpt (some slug) call.now call.nowIso hnone
    rw [List.map_cons, List.nodup_cons] at hnodup
    have hfresh2 : ∀ cl ∈ rest,
        ¬ hasOpKey (writeMemory st u call.turnId call.payload call.idemKey call.excerpt
          (some slug) call.now call.nowIso).1 u cl.idemKey := by
      intro cl hcl
      rw [hkeys cl.idemKey]
      rintro (heq | hold)
      · exact hnodup.1 (heq ▸ List.mem_map_of_mem MemoryCall.idemKey hcl)
      · exact hfresh cl (by simp [hcl]) hold
    obtain ⟨c, hc, hocc2, hnarr2⟩ := ih _ c1 hc1 (by omega)
      (fun cl hcl => hdom cl (by simp [hcl])) hfresh2 hnodup.2
    refine ⟨c, by simpa [applyMemoryCalls] using hc, ?_, ?_⟩
    · rw [hocc2, hocc1]
      simp only [List.length_cons]
      push_cast
      ring
    · rw [hnarr2, hnarr1]
      rfl

/-- C7 (amended): starting from a store without the card, a run of `n`
successful `write_memory` calls resolving to the same `(user, domain, slug)`
leaves the card with `occurrences = n`, and its narrative is the first call's
narrative extended by one time-stamped entry per merge whose narrative text is
non-blank (a blank-narrative merge leaves the narrative unchanged apart from
whitespace stripping). -/
theorem c7_occurrences_and_narrative (st : DBState) (u : Nat) (d slug : Str)
    (c0 : MemoryCall) (rest : List MemoryCall) (hslug : slug ≠ [])
    (hdom : ∀ call ∈ c0 :: rest, call.payload.domain = d)
    (hfresh : ∀ call ∈ c0 :: rest, ¬ hasOpKey st u call.idemKey)
    (hnodup : ((c0 :: rest).map MemoryCall.idemKey).Nodup)
    (hnocard : findMemoryCard st u d slug = none) :
    ∃ card, findMemoryCard (applyMemoryCalls u slug st (c0 :: rest)) u d slug = some card ∧
      card.occurrences = ((c0 :: rest).length : Int) ∧
      card.narrative = narrativeAfterCalls c0.payload.narrative rest := by
  have hd : c0.payload.domain = d := hdom c0 (by simp)
  have hk : ¬ hasOpKey st u c0.idemKey := hfresh c0 (by simp)
  have hnone := findWriteOp_eq_none_of_not_hasOpKey hk
  obtain ⟨c1, hc1, hocc1, hnarr1⟩ := writeMemory_insert_card st u c0.turnId c0.payload
    c0.idemKey c0.excerpt slug c0.now c0.nowIso hslug hnone (by rw [hd]; exact hnocard)
  rw [hd] at hc1
  have hkeys := writeMemory_applied_hasOpKey st u c0.turnId c0.payload c0.idemKey
    c0.excerpt (some slug) c0.now c0.nowIso hnone
  rw [List.map_cons, List.nodup_cons] at hnodup
  have hfresh2 : ∀ cl ∈ rest,
      ¬ hasOpKey (writeMemory st u c0.turnId c0.payload c0.idemKey c0.excerpt
        (some slug) c0.now c0.nowIso).1 u cl.idemKey := by
    intro cl hcl
    rw [hkeys cl.idemKey]
    rintro (heq | hold)
    · exact hnodup.1 (heq ▸ List.mem_map_of_mem MemoryCall.idemKey hcl)
    · exact hfresh cl (by simp [hcl]) hold
  obtain ⟨c, hc, hocc2, hnarr2⟩ := applyMemoryCalls_merge_run u slug d hslug rest _ c1 hc1
    (by omega) (fun cl hcl => hdom cl (by simp [hcl])) hfresh2 hnodup.2
  refine ⟨c, by simpa [applyMemoryCalls] using hc, ?_, ?_⟩
  · rw [hocc2, hocc1]
    simp only [List.length_cons]
    push_cast
    ring
  · rw [hnarr2, hnarr1]

end Mobius

namespace Mobius

/-- Counterexample to C2 as stated: with the pipeline enabled and the
hardcoded pause flag set, `context_for_prompt` returns the empty string even
though the fetched snapshot renders to non-empty text — the read path is
disabled too. -/
theorem c2_counterexample_read_path_disabled :
    pipelineInitWritesPaused = true ∧
    contextForPrompt { enabled := true, writesTemporarilyPaused := pipelineInitWritesPaused }
      (Except.ok exSnapshot) = [] ∧
    formatContext exSnapshot ≠ [] :=
  ⟨rfl, rfl, by decide⟩

/-- Witness for the amended C2 at a concrete paused pipeline. -/
theorem c2_pause_witness :
    processTurn { enabled := true, writesTemporarilyPaused := true } exStepsOk false false
      (chars "silent") none (chars "anon") [] [] none emptyDB = (emptyDB, []) ∧
    contextForPrompt { enabled := true, writesTemporarilyPaused := true }
      (Except.ok exSnapshot) = [] ∧
    pipelineInitWritesPaused = true :=
  c2_pause_disables_writes_and_reads { enabled := true, writesTemporarilyPaused := true }
    exStepsOk false false (chars "silent") none (chars "anon") [] [] none emptyDB
    (Except.ok exSnapshot) rfl

/-- Witness for C3 on a concrete ungrounded check-in write. -/
theorem c3_ungrounded_witness :
    (applyGroundingGuards true false exDecisionUngrounded exUserText).checkin = none ∧
    chars "check-in-filtered-missing-evidence" <:+:
      (applyGroundingGuards true false exDecisionUngrounded exUserText).reason :=
  (c3_strict_grounding_filters_ungrounded false exDecisionUngrounded exUserText).1
    exCheckinUngrounded rfl (by decide)

/-- Counterexample to C4 as stated: with `facts_only` on and blank evidence, a
memory write survives carrying the model paraphrase, which differs from the
(empty) evidence text. -/
theorem c4_counterexample_blank_evidence_keeps_paraphrase :
    (applyGroundingGuards false true exDecisionEmptyEvidence (chars "I like green tea.")).memory =
      some { domain := chars "health", memory := chars "likes green tea", evidence := [] } ∧
    chars "likes green tea" ≠ ([] : Str) :=
  ⟨by decide, by decide⟩

/-- Witness for the amended C4 on a concrete grounded memory write. -/
theorem c4_facts_only_witness :
    ({ domain := chars "health"
       memory := chars "I am lactose intolerant."
       evidence := chars "I am lactose intolerant." } : MemoryWrite).memory =
      (if (pyStrip exMemoryGrounded.evidence).isEmpty then pyStrip exMemoryGrounded.memory
       else pyStrip exMemoryGrounded.evidence) ∧
    ({ domain := chars "health"
       memory := chars "I am lactose intolerant."
       evidence := chars "I am lactose intolerant." } : MemoryWrite).evidence =
      pyStrip exMemoryGrounded.evidence ∧
    ({ domain := chars "health"
       memory := chars "I am lactose intolerant."
       evidence := chars "I am lactose intolerant." } : MemoryWrite).domain =
      exMemoryGrounded.domain :=
  c4_facts_only_memory_text false exDecisionGrounded (chars "I am lactose intolerant.")
    exMemoryGrounded
    { domain := chars "health"
      memory := chars "I am lactose intolerant."
      evidence := chars "I am lactose intolerant." }
    rfl (by decide)

/-- Counterexample to C5 as stated: with both grounding flags disabled, an
ambiguous-anaphor memory write survives the guard. -/
theorem c5_counterexample_flags_off_keeps_ambiguous :
    looksAmbiguousMemory
      (if (pyStrip exMemoryAmbiguous.evidence).isEmpty then exMemoryAmbiguous.memory
       else pyStrip exMemoryAmbiguous.evidence) = true ∧
    (applyGroundingGuards false false exDecisionAmbiguous (chars "It broke down.")).memory =
      some exMemoryAmbiguous :=
  ⟨by decide, by decide⟩

/-- Witness for the amended C5: with strict grounding on, the grounded but
ambiguous memory write is dropped. -/
theorem c5_ambiguous_witness :
    (applyGroundingGuards true false exDecisionAmbiguous (chars "It broke down.")).memory =
      none :=
  c5_ambiguous_memory_dropped true false exDecisionAmbiguous (chars "It broke down.")
    exMemoryAmbiguous (Or.inl rfl) rfl (by decide)

/-- Witness for C6 at a concrete accepted merge. -/
theorem c6_merge_witness :
    chars "lose-fat" ∈ (mergedCandidates [] [exCandidateRow]).map Prod.fst ∧
    chars "lose-fat" ≠ [] := by
  have h := c6_merge_resolver_only_accepts_shortlisted true [exCandidateRow] [] 0
    exMergeResponses (chars "lose-fat") (by decide)
  exact ⟨h.1, h.2.1⟩

/-- Counterexample to C7 as stated: a merge whose payload narrative is blank
increments `occurrences` but appends no time-stamped narrative entry. -/
theorem c7_counterexample_blank_merge_adds_no_entry :
    (findMemoryCard (applyMemoryCalls 7 (chars "tea") emptyDB [exCall1, exCall2]) 7
      (chars "health") (chars "tea")).map MemoryCardRow.occurrences = some 2 ∧
    (findMemoryCard (applyMemoryCalls 7 (chars "tea") emptyDB [exCall1, exCall2]) 7
      (chars "health") (chars "tea")).map MemoryCardRow.narrative = some (chars "likes tea") ∧
    ¬ chars "- " <:+: chars "likes tea" :=
  ⟨by decide, by decide, by decide⟩

/-- Witness for the amended C7 on a concrete two-write run. -/
theorem c7_run_witness :
    (findMemoryCard (applyMemoryCalls 7 (chars "tea") emptyDB [exCall1, exCall3]) 7
      (chars "health") (chars "tea")).map MemoryCardRow.occurrences = some 2 ∧
    (findMemoryCard (applyMemoryCalls 7 (chars "tea") emptyDB [exCall1, exCall3]) 7
      (chars "health") (chars "tea")).map MemoryCardRow.narrative =
      some (narrativeAfterCalls exCall1.payload.narrative [exCall3]) := by
  obtain ⟨card, hc, ho, hn⟩ := c7_occurrences_and_narrative emptyDB 7 (chars "health")
    (chars "tea") exCall1 [exCall3] (by decide) (by decide)
    (by intro call hcall; simp [hasOpKey, emptyDB]) (by decide) (by decide)
  rw [hc]
  constructor
  · simp [ho]
  · simp [hn]

/-- Counterexample to C8 as stated: a payload whose required `evidence` field
is the empty string passes the shape check, though the claim requires every
required field to be a non-empty string. -/
theorem c8_counterexample_empty_required_field_accepted :
    payloadHasRequiredShape exShapeAccepted = true ∧
    jget exShapeCheckinBlock (chars "evidence") = some (JValue.str []) :=
  ⟨by decide, rfl⟩

/-- Witness for the amended C8 at a concrete accepted payload and a concrete
rejected one. -/
theorem c8_shape_witness :
    (payloadHasRequiredShape exShapeAccepted = true ↔ ShapeSpec exShapeAccepted) ∧
    decideLoopAccepted [DecisionAttempt.text (some [])] = decideLoopAccepted [] :=
  ⟨c8_shape_check_iff_spec.1 exShapeAccepted, c8_shape_check_iff_spec.2 [] [] rfl⟩

/-- Witness for C9 on a concrete failing context fetch. -/
theorem c9_swallow_witness :
    (processTurnBody exStepsFailingFetch false false (chars "silent")
      (resolveUserKey none (chars "anon")) [] [] none emptyDB).2 =
      Except.error (chars "OperationalError") ∧
    (processTurn { enabled := true, writesTemporarilyPaused := false } exStepsFailingFetch
      false false (chars "silent") none (chars "anon") [] [] none emptyDB).2 = [] :=
  ⟨rfl, c9_process_turn_swallows_exceptions
    { enabled := true, writesTemporarilyPaused := false } exStepsFailingFetch false false
    (chars "silent") none (chars "anon") [] [] none emptyDB (chars "OperationalError") rfl⟩

/-- Witness for C1: a duplicate-key check-in run is a no-op marked
`skipped_duplicate`; a fresh-key memory run applies and appends its evidence
row. -/
theorem c1_ledger_witness :
    ((writeCheckin exDupDB 7 1 exCheckinPayload (chars "k") none 5).1 = exDupDB ∧
     (writeCheckin exDupDB 7 1 exCheckinPayload (chars "k") none 5).2.status =
       chars "skipped_duplicate") ∧
    ((writeMemory emptyDB 7 1 exMemoryPayload (chars "k1") (chars "e") (some (chars "tea")) 5
        (chars "2026-01-02T00:00:00")).2.status = chars "applied" ∧
     (writeMemory emptyDB 7 1 exMemoryPayload (chars "k1") (chars "e") (some (chars "tea")) 5
        (chars "2026-01-02T00:00:00")).1.memoryEvidence.length =
       emptyDB.memoryEvidence.length + 1) := by
  have h1 := (c1_idempotent_ledger_protocol exDupDB 7 1 exCheckinPayload exMemoryPayload
    (chars "k") (chars "k") none (chars "e") (some (chars "tea")) 5
    (chars "2026-01-02T00:00:00")).1 ⟨exWriteOpRow, by simp [exDupDB], rfl, rfl⟩
  have h2 := (c1_idempotent_ledger_protocol emptyDB 7 1 exCheckinPayload exMemoryPayload
    (chars "kc") (chars "k1") none (chars "e") (some (chars "tea")) 5
    (chars "2026-01-02T00:00:00")).2.2.2 (by simp [hasOpKey, emptyDB])
  exact ⟨h1, h2.1, h2.2.2⟩

end Mobius
